import Mathlib

/- Shallow embedding of the Lifeline Mesh core: the cryptographic message
   functions (encryptMessage, decryptMessage, chunkMessage, reassembleChunks,
   generateSafetyNumber, isMessageValid, buildSignBytes and their helpers)
   and the message-store module (checkAndMarkSeen, storeChunk, saveContact).

   Modelling conventions:
   - byte arrays (Uint8Array) are lists of natural numbers;
   - the TweetNaCl and TweetNaCl-util primitives and the host JSON codec are
     external dependencies of the core, so they are passed in as structures of
     abstract functions, exactly as the source injects the nacl and naclUtil
     objects into every function; theorems state the (pinpoint) properties of
     these primitives that each claim needs as explicit hypotheses;
   - randomness (the ephemeral keypair and the nonce of encryptMessage) and
     the current time (Date.now) are explicit inputs;
   - JavaScript exceptions become Except error values; the store (IndexedDB)
     becomes explicit state passing, one atomic step per IndexedDB
     transaction. -/

abbrev Bytes := List Nat

-- ============================================================================
-- Constants (crypto core)
-- ============================================================================

def DOMAIN : String := "DMESH_MSG_V1"

def MAX_BYTES : Nat := 150 * 1024

def MAX_SKEW_MS : Nat := 10 * 60 * 1000

def DEFAULT_TTL_MS : Int := 7 * 24 * 60 * 60 * 1000

def CHUNK_OVERHEAD : Nat := 150

/- TweetNaCl length constants: nacl.sign.publicKeyLength, nacl.box.publicKeyLength,
   nacl.box.nonceLength, nacl.sign.signatureLength. -/

def signPublicKeyLength : Nat := 32

def boxPublicKeyLength : Nat := 32

def nonceLength : Nat := 24

def signatureLength : Nat := 64

-- ============================================================================
-- Byte utilities
-- ============================================================================

/-- concatU8: concatenate multiple byte arrays into one. -/
def concatU8 (arrs : List Bytes) : Bytes := arrs.flatten

/-- JavaScript ToUint32 (the n >>> 0 coercion) on an integer value. -/
def jsToUint32 (n : Int) : Nat := (n % 4294967296).toNat

/-- The four big-endian bytes of a value below 2 to the 32. -/
def u32beNat (m : Nat) : Bytes :=
  [m / 16777216 % 256, m / 65536 % 256, m / 256 % 256, m % 256]

/-- u32be: convert a number to a 4-byte big-endian array (setUint32 of n >>> 0). -/
def u32be (n : Int) : Bytes := u32beNat (jsToUint32 n)

/-- u64beFromNumber: convert a timestamp to an 8-byte big-endian array.
    hi = Math.floor(ts / 4294967296) coerced by >>> 0, lo = ts >>> 0. -/
def u64beFromNumber (ts : Int) : Bytes :=
  u32beNat (jsToUint32 (Int.fdiv ts 4294967296)) ++ u32beNat (jsToUint32 ts)

/-- JavaScript `a || d` on an optional string (undefined and the empty string
    are falsy). -/
def jsOr (s : Option String) (d : String) : String :=
  match s with
  | none => d
  | some t => if t = "" then d else t

/-- JavaScript `a || d` on an optional number (undefined and 0 are falsy). -/
def jsOrNum (a : Option Int) (b : Int) : Int :=
  match a with
  | none => b
  | some x => if x = 0 then b else x

/-- JavaScript truthiness of an optional string field. -/
def jsTruthyStr : Option String → Bool
  | none => false
  | some s => s ≠ ""

-- ============================================================================
-- External dependencies as abstract structures
-- ============================================================================

/-- The TweetNaCl primitives used by the core. boxAfter and boxOpenAfter
    return none where the library returns null. -/
structure Nacl where
  hash : Bytes → Bytes
  signDetached : Bytes → Bytes → Bytes
  signVerify : Bytes → Bytes → Bytes → Bool
  boxBefore : Bytes → Bytes → Bytes
  boxAfter : Bytes → Bytes → Bytes → Option Bytes
  boxOpenAfter : Bytes → Bytes → Bytes → Option Bytes

/-- The TweetNaCl-util codecs. decodeBase64 returns none where the library
    throws on malformed input. -/
structure NaclUtil where
  encodeBase64 : Bytes → String
  decodeBase64 : String → Option Bytes
  decodeUTF8 : String → Bytes
  encodeUTF8 : Bytes → String

-- ============================================================================
-- Wire data model
-- ============================================================================

/-- The plaintext payload object built by encryptMessage and recovered by
    JSON.parse inside decryptMessage. type and content are optional because an
    arbitrary parsed payload need not carry them (decryptMessage applies the
    JavaScript fallbacks payload.content ?? text and payload.type || "text").
    The payloadExtra spread of encryptMessage is not modelled: no claim
    involves extra payload fields. -/
structure Payload where
  v : Nat
  ts : Int
  type : Option String
  content : Option String
deriving DecidableEq

/-- The dmesh-msg envelope. msgId and exp are optional for v1.0
    compatibility. -/
structure Envelope where
  v : Nat
  kind : String
  msgId : Option String
  ts : Int
  exp : Option Int
  senderSignPK : String
  senderBoxPK : String
  recipientBoxPK : String
  ephPK : String
  nonce : String
  ciphertext : String
  signature : String
deriving DecidableEq

/-- The dmesh-chunk object. -/
structure ChunkObj where
  v : Nat
  kind : String
  msgId : String
  seq : Nat
  total : Nat
  data : String
deriving DecidableEq

/-- The host JSON codec as used by the core: serialization of the payload
    object and of the envelope object, and parsing of received text back into
    these shapes. parse returns none where JSON.parse throws or yields a
    value of a different shape. -/
structure Json where
  stringifyPayload : Payload → String
  parsePayload : String → Option Payload
  stringifyEnvelope : Envelope → String
  parseEnvelope : String → Option Envelope

-- ============================================================================
-- Fingerprint, message id, validity
-- ============================================================================

/-- fingerprintFromSignPK: first 16 bytes of SHA-512 of the signing key. -/
def fingerprintFromSignPK (signPKu8 : Bytes) (nacl : Nacl) : Bytes :=
  (nacl.hash signPKu8).take 16

/-- messageIdFromCiphertext: first 32 bytes of SHA-512 of the ciphertext. -/
def messageIdFromCiphertext (ciphertext : Bytes) (nacl : Nacl) : Bytes :=
  (nacl.hash ciphertext).take 32

/-- isMessageValid: v1.0 strict-skew check under strictMode, otherwise the
    v1.1 expiration check with fallback bound ts + DEFAULT_TTL_MS.
    The current time (Date.now) is an explicit argument. -/
def isMessageValid (message : Envelope) (strictMode : Bool) (now : Int) : Bool :=
  if strictMode then
    (now - message.ts).natAbs ≤ MAX_SKEW_MS
  else
    match message.exp with
    | some exp => now ≤ exp
    | none => now ≤ message.ts + DEFAULT_TTL_MS

/-- calculateExpiration: ts plus the ttl, defaulting to DEFAULT_TTL_MS. -/
def calculateExpiration (ts : Int) (ttlMs : Option Int) : Int :=
  ts + ttlMs.getD DEFAULT_TTL_MS

-- ============================================================================
-- Safety numbers
-- ============================================================================

/-- JavaScript String.prototype.padStart. -/
def jsPadStart (s : String) (n : Nat) (c : Char) : String :=
  if n ≤ s.length then s else String.mk (List.replicate (n - s.length) c) ++ s

/-- The comparator passed to Array.sort by generateSafetyNumber: the first
    differing byte decides, via the sign of the subtraction. The two inputs
    have equal length (16), so the iteration over the first array covers
    both. -/
def fpComparator : Bytes → Bytes → Int
  | x :: xs, y :: ys => if x ≠ y then (x : Int) - (y : Int) else fpComparator xs ys
  | _, _ => 0

/-- generateSafetyNumber: sort the two fingerprints with the byte comparator
    (a stable two-element Array.sort puts the second first exactly when the
    comparator is positive), XOR them, read the first four XOR bytes as a
    big-endian uint32, reduce modulo 100000000, pad to 8 digits and insert the
    dash. -/
def generateSafetyNumber (fp1 fp2 : Bytes) : String :=
  let sorted0 := if 0 < fpComparator fp1 fp2 then fp2 else fp1
  let sorted1 := if 0 < fpComparator fp1 fp2 then fp1 else fp2
  let combined := (List.range 16).map (fun i => sorted0.getD i 0 ^^^ sorted1.getD i 0)
  let num := (combined.getD 0 0 * 16777216 + combined.getD 1 0 * 65536 +
      combined.getD 2 0 * 256 + combined.getD 3 0) % 100000000
  let padded := jsPadStart (Nat.repr num) 8 (Char.ofNat 48)
  String.mk (padded.data.take 4) ++ "-" ++ String.mk (padded.data.drop 4)

-- ============================================================================
-- Signature construction
-- ============================================================================

/-- buildSignBytes: DOMAIN, sender signing key, sender box key, recipient box
    key, ephemeral key, nonce, u64be(ts), u32be of the ciphertext length, then
    the ciphertext. -/
def buildSignBytes (senderSignPK senderBoxPK recipientBoxPK ephPK nonce : Bytes)
    (ts : Int) (ciphertext : Bytes) (u : NaclUtil) : Bytes :=
  concatU8 [u.decodeUTF8 DOMAIN, senderSignPK, senderBoxPK, recipientBoxPK, ephPK,
    nonce, u64beFromNumber ts, u32be (ciphertext.length : Int), ciphertext]

-- ============================================================================
-- Store data model (message store module, IndexedDB-backed)
-- ============================================================================

/-- A record of the seen store (deduplication cache). -/
structure SeenEntry where
  seenKey : String
  msgId : String
  senderFp : String
  seenAt : Int
deriving DecidableEq

/-- A record of the inbox store (the fields addToInbox writes; the original
    message and payload objects are not needed by any claim). -/
structure InboxEntry where
  msgId : String
  senderFpB64 : String
  content : String
  type : String
  ts : Int
  receivedAt : Int
  read : Bool
deriving DecidableEq

/-- The shared mutable state the decryption path can reach: the seen store
    and the inbox store. -/
structure Store where
  seen : List SeenEntry
  inbox : List InboxEntry
deriving DecidableEq

/-- idbGet on the seen store: one readonly IndexedDB transaction. -/
def idbGetSeen (st : Store) (key : String) : Option SeenEntry :=
  st.seen.find? (fun e => e.seenKey == key)

/-- idbPut on the seen store: one readwrite IndexedDB transaction (upsert by
    the seenKey key path). -/
def idbPutSeen (st : Store) (e : SeenEntry) : Store :=
  if st.seen.any (fun x => x.seenKey == e.seenKey) then
    { st with seen := st.seen.map (fun x => if x.seenKey == e.seenKey then e else x) }
  else
    { st with seen := st.seen ++ [e] }

/-- makeSeenKey: the msgId:senderFp key of the seen store. -/
def makeSeenKey (msgId senderFp : String) : String :=
  msgId ++ ":" ++ senderFp

/-- checkAndMarkSeen: an idbGet transaction on the seen store followed, when
    the key is absent, by a separate idbPut transaction. Returns true when the
    pair was not seen before (allowed). Date.now is the explicit now
    argument. -/
def checkAndMarkSeen (msgId senderFp : String) (now : Int) (st : Store) : Bool × Store :=
  let seenKey := makeSeenKey msgId senderFp
  match idbGetSeen st seenKey with
  | some _ => (false, st)
  | none =>
      (true, idbPutSeen st ⟨seenKey, msgId, senderFp, now⟩)

/-- Interleaved execution of two concurrent checkAndMarkSeen calls on the same
    pair. Each idbGet and each idbPut of checkAndMarkSeen is its own IndexedDB
    transaction, and the function awaits between them, so the schedule
    get1, get2, put1, put2 is a possible interleaving: both calls read the
    initial state, then each performs its conditional put. The pair of
    booleans is the pair of return values of the two calls. -/
def checkAndMarkSeenRace (msgId senderFp : String) (now1 now2 : Int) (st : Store) :
    (Bool × Bool) × Store :=
  let seenKey := makeSeenKey msgId senderFp
  let g1 := idbGetSeen st seenKey
  let g2 := idbGetSeen st seenKey
  let st1 := match g1 with
    | some _ => st
    | none => idbPutSeen st ⟨seenKey, msgId, senderFp, now1⟩
  let st2 := match g2 with
    | some _ => st1
    | none => idbPutSeen st1 ⟨seenKey, msgId, senderFp, now2⟩
  ((g1.isSome = false, g2.isSome = false), st2)

-- ============================================================================
-- Encryption
-- ============================================================================

inductive EncryptError where
  | contentTooLarge
  | encryptionFailed
deriving DecidableEq

/-- The payload object built by encryptMessage:
    v 1, ts, type or the "text" default, and the content. -/
def payloadOf (content : String) (ts : Int) (type : Option String) : Payload :=
  { v := 1, ts := ts, type := some (jsOr type "text"), content := some content }

/-- encryptMessage. The timestamp default (Date.now), the ephemeral keypair
    and the nonce (nacl.randomBytes) are explicit inputs; the content size
    check uses the UTF-8 byte length (Blob size). The sender box secret key is
    unused by the source as well. -/
def encryptMessage (content : String) (senderSignPK senderSignSK senderBoxPK : Bytes)
    (recipientBoxPK : Bytes) (ts : Int) (ttlMs : Option Int) (type : Option String)
    (ephPK ephSK nonce : Bytes) (nacl : Nacl) (u : NaclUtil) (j : Json) :
    Except EncryptError Envelope :=
  let timestamp := ts
  let expiration := calculateExpiration timestamp ttlMs
  if MAX_BYTES < (u.decodeUTF8 content).length then .error .contentTooLarge
  else
    let payload := payloadOf content timestamp type
    let payloadBytes := u.decodeUTF8 (j.stringifyPayload payload)
    let shared := nacl.boxBefore recipientBoxPK ephSK
    match nacl.boxAfter payloadBytes nonce shared with
    | none => .error .encryptionFailed
    | some ciphertext =>
      let msgId := messageIdFromCiphertext ciphertext nacl
      let signBytes := buildSignBytes senderSignPK senderBoxPK recipientBoxPK ephPK
        nonce timestamp ciphertext u
      let signature := nacl.signDetached signBytes senderSignSK
      .ok { v := 1, kind := "dmesh-msg",
            msgId := some (u.encodeBase64 msgId),
            ts := timestamp, exp := some expiration,
            senderSignPK := u.encodeBase64 senderSignPK,
            senderBoxPK := u.encodeBase64 senderBoxPK,
            recipientBoxPK := u.encodeBase64 recipientBoxPK,
            ephPK := u.encodeBase64 ephPK,
            nonce := u.encodeBase64 nonce,
            ciphertext := u.encodeBase64 ciphertext,
            signature := u.encodeBase64 signature }

-- ============================================================================
-- Decryption
-- ============================================================================

/-- The failure classes of decryptMessage, one per thrown error of the
    source. invalidKeyLength carries the name of the offending field. -/
inductive DecryptError where
  | invalidMessageFormat
  | base64DecodeFailed
  | invalidKeyLength (field : String)
  | timestampSkew
  | messageExpired
  | messageIdMismatch
  | recipientMismatch
  | senderSignKeyMismatch
  | senderBoxKeyMismatch
  | signatureInvalid
  | replayDetected
  | decryptionFailed
  | payloadParseFailed
deriving DecidableEq

/-- The successful result of decryptMessage. -/
structure DecryptResult where
  content : String
  senderSignPK : Bytes
  senderBoxPK : Bytes
  senderFp : Bytes
  ts : Int
  msgId : String
  type : String
  payload : Payload
deriving DecidableEq

/-- decryptMessage. The message argument is optional because the source first
    checks message for null. The replay check is an effectful callback on the
    store state; every other step leaves the state unchanged. The ts
    finiteness check of the source is vacuous here because the embedded ts is
    an integer. The checks appear in the source order: format, base64 decode,
    lengths, validity window, message-id binding, recipient binding, sender
    key consistency, signature, replay, box open, payload parse. -/
def decryptMessage (msg : Option Envelope) (recipientBoxPK recipientBoxSK : Bytes)
    (expectedSenderSignPK expectedSenderBoxPK : Option Bytes)
    (replayCheck : Option (String → String → Store → Bool × Store))
    (strictMode : Bool) (now : Int) (nacl : Nacl) (u : NaclUtil) (j : Json)
    (st : Store) : Except DecryptError DecryptResult × Store :=
  match msg with
  | none => (.error .invalidMessageFormat, st)
  | some message =>
    if message.v ≠ 1 ∨ message.kind ≠ "dmesh-msg" then (.error .invalidMessageFormat, st)
    else
      match u.decodeBase64 message.senderSignPK, u.decodeBase64 message.senderBoxPK,
          u.decodeBase64 message.recipientBoxPK, u.decodeBase64 message.ephPK,
          u.decodeBase64 message.nonce, u.decodeBase64 message.ciphertext,
          u.decodeBase64 message.signature with
      | some senderSignPK, some senderBoxPK, some recipientBoxPKMsg, some ephPK,
        some nonce, some ciphertext, some signature =>
        if senderSignPK.length ≠ signPublicKeyLength then
          (.error (.invalidKeyLength "senderSignPK"), st)
        else if senderBoxPK.length ≠ boxPublicKeyLength then
          (.error (.invalidKeyLength "senderBoxPK"), st)
        else if recipientBoxPKMsg.length ≠ boxPublicKeyLength then
          (.error (.invalidKeyLength "recipientBoxPK"), st)
        else if ephPK.length ≠ boxPublicKeyLength then
          (.error (.invalidKeyLength "ephPK"), st)
        else if nonce.length ≠ nonceLength then
          (.error (.invalidKeyLength "nonce"), st)
        else if signature.length ≠ signatureLength then
          (.error (.invalidKeyLength "signature"), st)
        else
          let ts := message.ts
          if ¬ isMessageValid message strictMode now then
            (if strictMode then (.error .timestampSkew, st)
             else (.error .messageExpired, st))
          else
            let computedMsgId := messageIdFromCiphertext ciphertext nacl
            let msgIdB64 := u.encodeBase64 computedMsgId
            if jsTruthyStr message.msgId = true ∧ message.msgId ≠ some msgIdB64 then
              (.error .messageIdMismatch, st)
            else if u.encodeBase64 recipientBoxPK ≠ message.recipientBoxPK then
              (.error .recipientMismatch, st)
            else
              let senderFp := fingerprintFromSignPK senderSignPK nacl
              let step3 : Store → Except DecryptError DecryptResult × Store := fun st0 =>
                let shared := nacl.boxBefore ephPK recipientBoxSK
                match nacl.boxOpenAfter ciphertext nonce shared with
                | none => (.error .decryptionFailed, st0)
                | some plaintext =>
                  let text := u.encodeUTF8 plaintext
                  match j.parsePayload text with
                  | none => (.error .payloadParseFailed, st0)
                  | some payload =>
                    (.ok { content := payload.content.getD text,
                           senderSignPK := senderSignPK,
                           senderBoxPK := senderBoxPK,
                           senderFp := senderFp,
                           ts := ts, msgId := msgIdB64,
                           type := jsOr payload.type "text",
                           payload := payload }, st0)
              let step2 : Unit → Except DecryptError DecryptResult × Store := fun _ =>
                let signBytes := buildSignBytes senderSignPK senderBoxPK recipientBoxPKMsg
                  ephPK nonce ts ciphertext u
                if nacl.signVerify signBytes signature senderSignPK = false then
                  (.error .signatureInvalid, st)
                else
                  match replayCheck with
                  | some rc =>
                    let senderFpB64 := u.encodeBase64 senderFp
                    let res := rc msgIdB64 senderFpB64 st
                    if res.1 = false then (.error .replayDetected, res.2)
                    else step3 res.2
                  | none => step3 st
              let step1b : Unit → Except DecryptError DecryptResult × Store := fun _ =>
                match expectedSenderBoxPK with
                | some k =>
                  if u.encodeBase64 k ≠ message.senderBoxPK then
                    (.error .senderBoxKeyMismatch, st)
                  else step2 ()
                | none => step2 ()
              match expectedSenderSignPK with
              | some k =>
                if u.encodeBase64 k ≠ message.senderSignPK then
                  (.error .senderSignKeyMismatch, st)
                else step1b ()
              | none => step1b ()
      | _, _, _, _, _, _, _ => (.error .base64DecodeFailed, st)

-- ============================================================================
-- Chunking
-- ============================================================================

/-- chunkMessage: serialize the envelope to UTF-8 JSON, derive the message id
    from the ciphertext, and cut the serialization into total =
    ceil(length / (maxChunkSize - CHUNK_OVERHEAD)) contiguous slices. The
    slice of index i is msgBytes.slice(i * dataSize, min((i+1) * dataSize,
    length)), which equals take dataSize of drop (i * dataSize). Errors where
    the source throws: an undecodable ciphertext field and a non-positive data
    size. -/
def chunkMessage (msgJson : Envelope) (maxChunkSize : Nat) (nacl : Nacl)
    (u : NaclUtil) (j : Json) : Except String (List ChunkObj) :=
  let msgBytes := u.decodeUTF8 (j.stringifyEnvelope msgJson)
  match u.decodeBase64 msgJson.ciphertext with
  | none => .error "Base64 decode failed"
  | some ciphertext =>
    let msgId := messageIdFromCiphertext ciphertext nacl
    let msgIdB64 := u.encodeBase64 msgId
    if maxChunkSize ≤ CHUNK_OVERHEAD then .error "Max chunk size too small"
    else
      let dataSize := maxChunkSize - CHUNK_OVERHEAD
      let total := (msgBytes.length + dataSize - 1) / dataSize
      .ok ((List.range total).map (fun i =>
        { v := 1, kind := "dmesh-chunk", msgId := msgIdB64, seq := i, total := total,
          data := u.encodeBase64 ((msgBytes.drop (i * dataSize)).take dataSize) }))

/-- The consecutive-sequence loop of reassembleChunks: sorted[i].seq must be i
    for every index i. -/
def seqCheck : Nat → List ChunkObj → Bool
  | _, [] => true
  | i, c :: rest => c.seq == i && seqCheck (i + 1) rest

/-- reassembleChunks: require a nonempty list of dmesh-chunk objects, sort by
    seq (Array.sort with the numeric comparator is a stable ascending sort,
    modelled by mergeSort), require length equal to the total of the first
    sorted chunk, consecutive sequence numbers, and one msgId; then decode the
    data fields, concatenate, UTF-8 decode and JSON.parse. -/
def reassembleChunks (chunks : List ChunkObj) (u : NaclUtil) (j : Json) :
    Except String Envelope :=
  if chunks.isEmpty then .error "No chunks provided"
  else if ¬ chunks.all (fun c => c.kind == "dmesh-chunk") then .error "Invalid chunk kind"
  else
    let sorted := chunks.mergeSort (fun a b => a.seq ≤ b.seq)
    match sorted with
    | [] => .error "No chunks provided"
    | first :: _ =>
      if sorted.length ≠ first.total then .error "Incomplete chunks"
      else if ¬ seqCheck 0 sorted then .error "Missing chunk sequence"
      else if ¬ sorted.all (fun c => c.msgId == first.msgId) then
        .error "Message ID mismatch across chunks"
      else
        match sorted.mapM (fun c => u.decodeBase64 c.data) with
        | none => .error "Base64 decode failed"
        | some dataArrays =>
          let msgBytes := concatU8 dataArrays
          match j.parseEnvelope (u.encodeUTF8 msgBytes) with
          | none => .error "JSON parse failed"
          | some env => .ok env

-- ============================================================================
-- Chunk store (partial reassembly)
-- ============================================================================

/-- A record of the chunks store, keyed by chunkKey = msgId:seq. -/
structure ChunkRec where
  chunkKey : String
  msgId : String
  seq : Nat
  total : Nat
  data : String
  receivedAt : Int
deriving DecidableEq

/-- Lexicographic comparison of char lists by code point (the IndexedDB string
    key order; the stored keys are ASCII, where code-point order and code-unit
    order agree). -/
def charListLtb : List Char → List Char → Bool
  | [], [] => false
  | [], _ :: _ => true
  | _ :: _, [] => false
  | a :: as, b :: bs =>
    if a.toNat < b.toNat then true
    else if b.toNat < a.toNat then false
    else charListLtb as bs

/-- IndexedDB string key order. -/
def strLtb (a b : String) : Bool := charListLtb a.data b.data

/-- The chunks store: records in ascending chunkKey order, as IndexedDB keeps
    them. -/
abbrev ChunkStore := List ChunkRec

/-- idbPut on the chunks store: upsert by chunkKey, keeping key order. -/
def idbPutChunk (s : ChunkStore) (r : ChunkRec) : ChunkStore :=
  match s with
  | [] => [r]
  | x :: xs =>
    if x.chunkKey = r.chunkKey then r :: xs
    else if strLtb r.chunkKey x.chunkKey then r :: x :: xs
    else x :: idbPutChunk xs r

/-- idbGetByIndex on the msgId index of the chunks store: all records with the
    given msgId, in (index key, primary key) order; restricted to one msgId
    this is the chunkKey order of the store. -/
def idbGetChunksByMsgId (s : ChunkStore) (m : String) : List ChunkRec :=
  s.filter (fun c => c.msgId == m)

/-- idbDelete on the chunks store. -/
def idbDelChunk (s : ChunkStore) (key : String) : ChunkStore :=
  s.filter (fun c => ¬ c.chunkKey == key)

/-- The record storeChunk writes for a received chunk. -/
def chunkRecOf (chunk : ChunkObj) (now : Int) : ChunkRec :=
  { chunkKey := chunk.msgId ++ ":" ++ Nat.repr chunk.seq, msgId := chunk.msgId,
    seq := chunk.seq, total := chunk.total, data := chunk.data, receivedAt := now }

/-- storeChunk: put the chunk record (key msgId:seq), load every record with
    the same msgId, and if their number equals chunk.total, delete them and
    return them as chunk objects; otherwise return none. -/
def storeChunk (chunk : ChunkObj) (now : Int) (s : ChunkStore) :
    Option (List ChunkObj) × ChunkStore :=
  let s1 := idbPutChunk s (chunkRecOf chunk now)
  let allChunks := idbGetChunksByMsgId s1 chunk.msgId
  if allChunks.length = chunk.total then
    let s2 := allChunks.foldl (fun acc c => idbDelChunk acc c.chunkKey) s1
    (some (allChunks.map (fun c =>
      { v := 1, kind := "dmesh-chunk", msgId := c.msgId, seq := c.seq,
        total := c.total, data := c.data })), s2)
  else
    (none, s1)

-- ============================================================================
-- Contacts store
-- ============================================================================

/-- The contact argument of saveContact. Fields other than the fingerprint are
    optional: an absent property is not spread into the stored entry. -/
structure Contact where
  fp : String
  name : Option String
  signPK : Option String
  boxPK : Option String
  verified : Option String
deriving DecidableEq

/-- A stored contact record. -/
structure ContactEntry where
  fp : String
  name : Option String
  signPK : Option String
  boxPK : Option String
  verified : String
  addedAt : Int
  updatedAt : Int
deriving DecidableEq

abbrev ContactStore := List ContactEntry

/-- idbGet on the contacts store (key path fp). -/
def idbGetContact (s : ContactStore) (fp : String) : Option ContactEntry :=
  s.find? (fun e => e.fp == fp)

/-- idbPut on the contacts store: upsert by fp. -/
def idbPutContact (s : ContactStore) (e : ContactEntry) : ContactStore :=
  if s.any (fun x => x.fp == e.fp) then
    s.map (fun x => if x.fp == e.fp then e else x)
  else
    s ++ [e]

/-- saveContact: merge the existing entry (if any) with the given contact by
    object spread (a present contact field overrides the stored one), with
    verified = contact.verified || existing.verified || "unverified" and
    addedAt = existing.addedAt || Date.now(). -/
def saveContact (contact : Contact) (now : Int) (s : ContactStore) : ContactStore :=
  let existing := idbGetContact s contact.fp
  let entry : ContactEntry :=
    { fp := contact.fp,
      name := match contact.name with
        | some n => some n
        | none => existing.bind (fun e => e.name),
      signPK := match contact.signPK with
        | some k => some k
        | none => existing.bind (fun e => e.signPK),
      boxPK := match contact.boxPK with
        | some k => some k
        | none => existing.bind (fun e => e.boxPK),
      verified := jsOr contact.verified
        (jsOr (existing.map (fun e => e.verified)) "unverified"),
      addedAt := jsOrNum (existing.map (fun e => e.addedAt)) now,
      updatedAt := now }
  idbPutContact s entry

-- ============================================================================
-- C9: safety-number derivation (specification-side definition and lemmas)
-- ============================================================================

/-- The SafetyNumber derivation as the specification words it: sort the two
    fingerprints lexicographically, XOR them, read the first four bytes of the
    XOR as a big-endian uint32, take it modulo 100000000, and format the
    8-decimal-digit string as NNNN-NNNN. -/
def safetyNumberSpec (a b : Bytes) : String :=
  let lo := if List.Lex (· < ·) b a then b else a
  let hi := if List.Lex (· < ·) b a then a else b
  let x := List.zipWith (fun p q => p ^^^ q) lo hi
  let num := (x.getD 0 0 * 16777216 + x.getD 1 0 * 65536 +
      x.getD 2 0 * 256 + x.getD 3 0) % 100000000
  let padded := jsPadStart (Nat.repr num) 8 (Char.ofNat 48)
  String.mk (padded.data.take 4) ++ "-" ++ String.mk (padded.data.drop 4)

lemma fpComparator_antisymm : ∀ (a b : Bytes), a.length = b.length →
    fpComparator a b = -(fpComparator b a) := by
  intro a
  induction a with
  | nil =>
    intro b h
    cases b with
    | nil => simp [fpComparator]
    | cons y ys => simp at h
  | cons x xs ih =>
    intro b h
    cases b with
    | nil => simp at h
    | cons y ys =>
      simp only [List.length_cons, Nat.succ.injEq] at h
      by_cases hxy : x = y
      · subst hxy
        simp only [fpComparator, if_neg (fun hc : x ≠ x => hc rfl)]
        exact ih ys h
      · have hyx : y ≠ x := fun hc => hxy hc.symm
        simp only [fpComparator, if_pos hxy, if_pos hyx]
        omega

lemma fpComparator_pos_iff_lex : ∀ (a b : Bytes), a.length = b.length →
    (0 < fpComparator a b ↔ List.Lex (· < ·) b a) := by
  intro a
  induction a with
  | nil =>
    intro b h
    cases b with
    | nil =>
      simp only [fpComparator]
      constructor
      · intro hc; omega
      · intro hc; cases hc
    | cons y ys => simp at h
  | cons x xs ih =>
    intro b h
    cases b with
    | nil => simp at h
    | cons y ys =>
      simp only [List.length_cons, Nat.succ.injEq] at h
      by_cases hxy : x = y
      · subst hxy
        simp only [fpComparator, if_neg (fun hc : x ≠ x => hc rfl)]
        rw [ih ys h]
        constructor
        · intro hl; exact List.Lex.cons hl
        · intro hl
          cases hl with
          | cons hl2 => exact hl2
          | rel hr => exact absurd hr (lt_irrefl x)
      · simp only [fpComparator, if_pos hxy]
        constructor
        · intro hpos
          have hyx : y < x := by omega
          exact List.Lex.rel hyx
        · intro hl
          cases hl with
          | cons hl2 => exact absurd rfl hxy
          | rel hr => omega

/-- The per-index combination of two length-n lists, as generateSafetyNumber
    computes it with indexed access, is the pointwise zipWith. -/
lemma map_range_getD_eq_zipWith (f : Nat → Nat → Nat) :
    ∀ (n : Nat) (a b : Bytes), a.length = n → b.length = n →
    (List.range n).map (fun i => f (a.getD i 0) (b.getD i 0)) = List.zipWith f a b := by
  intro n
  induction n with
  | zero =>
    intro a b ha hb
    rw [List.length_eq_zero] at ha hb
    subst ha; subst hb
    simp
  | succ m ih =>
    intro a b ha hb
    cases a with
    | nil => simp at ha
    | cons x xs =>
      cases b with
      | nil => simp at hb
      | cons y ys =>
        simp only [List.length_cons, Nat.succ.injEq] at ha hb
        rw [List.range_succ_eq_map, List.map_cons, List.map_map]
        have hcomp : ((fun i => f ((x :: xs).getD i 0) ((y :: ys).getD i 0)) ∘ Nat.succ) =
            fun i => f (xs.getD i 0) (ys.getD i 0) := by
          funext i
          simp [List.getD_cons_succ]
        rw [hcomp, ih xs ys ha hb]
        simp [List.getD_cons_zero]

/-- C9: generateSafetyNumber is symmetric, and equals the
    specification-level derivation (lexicographic sort, XOR, big-endian
    uint32 of the first four bytes, modulo 100000000, NNNN-NNNN format). -/
theorem C9_safety_number (a b : Bytes) (ha : a.length = 16) (hb : b.length = 16) :
    generateSafetyNumber a b = generateSafetyNumber b a ∧
    generateSafetyNumber a b = safetyNumberSpec a b := by
  constructor
  · have hba := fpComparator_antisymm a b (ha.trans hb.symm)
    unfold generateSafetyNumber
    by_cases hpos : 0 < fpComparator a b
    · rw [if_pos hpos, if_pos hpos, if_neg (by omega), if_neg (by omega)]
    · rw [if_neg hpos, if_neg hpos]
      by_cases hpos2 : 0 < fpComparator b a
      · rw [if_pos hpos2, if_pos hpos2]
      · rw [if_neg hpos2, if_neg hpos2]
        simp [Nat.xor_comm]
  · have hiff := fpComparator_pos_iff_lex a b (ha.trans hb.symm)
    have hz := map_range_getD_eq_zipWith (fun p q => p ^^^ q) 16 a b ha hb
    have hz2 := map_range_getD_eq_zipWith (fun p q => p ^^^ q) 16 b a hb ha
    unfold generateSafetyNumber safetyNumberSpec
    by_cases hl : List.Lex (· < ·) b a
    · rw [if_pos (hiff.mpr hl), if_pos (hiff.mpr hl), if_pos hl, if_pos hl]
      simp only [hz2]
    · rw [if_neg (fun hp => hl (hiff.mp hp)), if_neg (fun hp => hl (hiff.mp hp)),
        if_neg hl, if_neg hl]
      simp only [hz]

/-- C9 witness: the theorem applied at two concrete 16-byte fingerprints. -/
theorem C9_safety_number_witness :
    generateSafetyNumber (List.replicate 16 7) (3 :: List.replicate 15 9) =
      generateSafetyNumber (3 :: List.replicate 15 9) (List.replicate 16 7) ∧
    generateSafetyNumber (List.replicate 16 7) (3 :: List.replicate 15 9) =
      safetyNumberSpec (List.replicate 16 7) (3 :: List.replicate 15 9) :=
  C9_safety_number _ _ (by decide) (by decide)

-- ============================================================================
-- C5: the seen-store check-and-mark is not one atomic transaction
-- ============================================================================

/-- C5: checkAndMarkSeen performs its read (idbGet, a readonly transaction)
    and its conditional insert (idbPut, a separate readwrite transaction) as
    two IndexedDB transactions with an await between them, so the interleaving
    in which both concurrent calls read before either writes is possible; on
    that schedule both calls return true (Allowed), while a sequential pair
    returns one true and one false. This contradicts the required atomicity
    (exactly one Allowed and one Rejected for a same-pair concurrent pair of
    calls). -/
theorem C5_check_and_mark_race :
    (checkAndMarkSeenRace "m" "f" 0 0 { seen := [], inbox := [] }).1 = (true, true) ∧
    (checkAndMarkSeen "m" "f" 0 { seen := [], inbox := [] }).1 = true ∧
    (checkAndMarkSeen "m" "f" 0
      (checkAndMarkSeen "m" "f" 0 { seen := [], inbox := [] }).2).1 = false := by
  refine ⟨rfl, rfl, ?_⟩
  rfl

-- ============================================================================
-- C8: storeChunk (partial-chunk store)
-- ============================================================================

lemma char_toNat_inj {a b : Char} (h : a.toNat = b.toNat) : a = b := by
  have ha := Char.ofNat_toNat a
  have hb := Char.ofNat_toNat b
  rw [← ha, ← hb, h]

lemma charListLtb_irrefl : ∀ l, charListLtb l l = false := by
  intro l
  induction l with
  | nil => rfl
  | cons c cs ih =>
    simp only [charListLtb, if_neg (lt_irrefl c.toNat), ih]

lemma charListLtb_trans : ∀ a b c, charListLtb a b = true → charListLtb b c = true →
    charListLtb a c = true := by
  intro a
  induction a with
  | nil =>
    intro b c hab hbc
    cases b with
    | nil => exact hbc
    | cons y ys =>
      cases c with
      | nil => simp [charListLtb] at hbc
      | cons z zs => rfl
  | cons x xs ih =>
    intro b c hab hbc
    cases b with
    | nil => simp [charListLtb] at hab
    | cons y ys =>
      cases c with
      | nil => simp [charListLtb] at hbc
      | cons z zs =>
        simp only [charListLtb] at hab hbc ⊢
        by_cases hxy : x.toNat < y.toNat
        · by_cases hyz : y.toNat < z.toNat
          · rw [if_pos (by omega)]
          · rw [if_neg hyz] at hbc
            by_cases hzy : z.toNat < y.toNat
            · rw [if_pos hzy] at hbc; exact absurd hbc (by simp)
            · rw [if_neg hzy] at hbc
              rw [if_pos (by omega)]
        · rw [if_neg hxy] at hab
          by_cases hyx : y.toNat < x.toNat
          · rw [if_pos hyx] at hab; exact absurd hab (by simp)
          · rw [if_neg hyx] at hab
            by_cases hyz : y.toNat < z.toNat
            · rw [if_pos (by omega)]
            · rw [if_neg hyz] at hbc
              by_cases hzy : z.toNat < y.toNat
              · rw [if_pos hzy] at hbc; exact absurd hbc (by simp)
              · rw [if_neg hzy] at hbc
                rw [if_neg (by omega), if_neg (by omega)]
                exact ih ys zs hab hbc

lemma charListLtb_connex : ∀ a b, a ≠ b → charListLtb a b = false → charListLtb b a = true := by
  intro a
  induction a with
  | nil =>
    intro b hne hab
    cases b with
    | nil => exact absurd rfl hne
    | cons y ys => simp [charListLtb] at hab
  | cons x xs ih =>
    intro b hne hab
    cases b with
    | nil => rfl
    | cons y ys =>
      simp only [charListLtb] at hab ⊢
      by_cases hxy : x.toNat < y.toNat
      · rw [if_pos hxy] at hab; exact absurd hab (by simp)
      · rw [if_neg hxy] at hab
        by_cases hyx : y.toNat < x.toNat
        · rw [if_pos hyx]
        · rw [if_neg hyx] at hab
          have hx : x = y := char_toNat_inj (by omega)
          subst hx
          have hne2 : xs ≠ ys := fun hc => hne (by rw [hc])
          rw [if_neg (lt_irrefl x.toNat), if_neg (lt_irrefl x.toNat)]
          exact ih ys hne2 hab

lemma strLtb_irrefl (s : String) : strLtb s s = false := charListLtb_irrefl s.data

lemma strLtb_trans {a b c : String} (hab : strLtb a b = true) (hbc : strLtb b c = true) :
    strLtb a c = true := charListLtb_trans a.data b.data c.data hab hbc

lemma strLtb_connex {a b : String} (hne : a ≠ b) (hab : strLtb a b = false) :
    strLtb b a = true := by
  have hd : a.data ≠ b.data := fun hc => hne (by cases a; cases b; simp only at hc; rw [hc])
  exact charListLtb_connex a.data b.data hd hab

/-- Well-formedness of the chunks store: every record is keyed by its own
    msgId:seq, and the records are in strictly ascending chunkKey order (the
    IndexedDB primary-key invariant). -/
def ChunkStoreWF (s : ChunkStore) : Prop :=
  (∀ r ∈ s, r.chunkKey = r.msgId ++ ":" ++ Nat.repr r.seq) ∧
  s.Pairwise (fun r1 r2 => strLtb r1.chunkKey r2.chunkKey = true)

lemma mem_idbPutChunk_self : ∀ (s : ChunkStore) (r : ChunkRec), r ∈ idbPutChunk s r := by
  intro s r
  induction s with
  | nil => simp [idbPutChunk]
  | cons x xs ih =>
    simp only [idbPutChunk]
    by_cases h1 : x.chunkKey = r.chunkKey
    · rw [if_pos h1]; exact List.mem_cons_self r xs
    · rw [if_neg h1]
      by_cases h2 : strLtb r.chunkKey x.chunkKey = true
      · rw [if_pos h2]; exact List.mem_cons_self r _
      · rw [if_neg h2]; exact List.mem_cons_of_mem x ih

lemma mem_of_mem_idbPutChunk : ∀ (s : ChunkStore) (r e : ChunkRec),
    e ∈ idbPutChunk s r → e ∈ s ∨ e = r := by
  intro s r
  induction s with
  | nil =>
    intro e he
    simp only [idbPutChunk, List.mem_singleton] at he
    exact Or.inr he
  | cons x xs ih =>
    intro e he
    simp only [idbPutChunk] at he
    by_cases h1 : x.chunkKey = r.chunkKey
    · rw [if_pos h1] at he
      rcases List.mem_cons.mp he with h | h
      · exact Or.inr h
      · exact Or.inl (List.mem_cons_of_mem x h)
    · rw [if_neg h1] at he
      by_cases h2 : strLtb r.chunkKey x.chunkKey = true
      · rw [if_pos h2] at he
        rcases List.mem_cons.mp he with h | h
        · exact Or.inr h
        · exact Or.inl h
      · rw [if_neg h2] at he
        rcases List.mem_cons.mp he with h | h
        · exact Or.inl (h ▸ List.mem_cons_self x xs)
        · rcases ih e h with h3 | h3
          · exact Or.inl (List.mem_cons_of_mem x h3)
          · exact Or.inr h3

lemma idbPutChunk_wf (s : ChunkStore) (r : ChunkRec)
    (hr : r.chunkKey = r.msgId ++ ":" ++ Nat.repr r.seq)
    (hwf : ChunkStoreWF s) : ChunkStoreWF (idbPutChunk s r) := by
  obtain ⟨hshape, hsorted⟩ := hwf
  induction s with
  | nil =>
    refine ⟨?_, ?_⟩
    · intro e he
      simp only [idbPutChunk, List.mem_singleton] at he
      rw [he]; exact hr
    · simp [idbPutChunk]
  | cons x xs ih =>
    have hshape2 : ∀ e ∈ xs, e.chunkKey = e.msgId ++ ":" ++ Nat.repr e.seq :=
      fun e he => hshape e (List.mem_cons_of_mem x he)
    have hsorted2 : xs.Pairwise (fun r1 r2 => strLtb r1.chunkKey r2.chunkKey = true) :=
      (List.pairwise_cons.mp hsorted).2
    have hxlt : ∀ e ∈ xs, strLtb x.chunkKey e.chunkKey = true :=
      (List.pairwise_cons.mp hsorted).1
    simp only [idbPutChunk]
    by_cases h1 : x.chunkKey = r.chunkKey
    · rw [if_pos h1]
      refine ⟨?_, ?_⟩
      · intro e he
        rcases List.mem_cons.mp he with h | h
        · rw [h]; exact hr
        · exact hshape2 e h
      · rw [List.pairwise_cons]
        exact ⟨fun e he => h1 ▸ hxlt e he, hsorted2⟩
    · rw [if_neg h1]
      by_cases h2 : strLtb r.chunkKey x.chunkKey = true
      · rw [if_pos h2]
        refine ⟨?_, ?_⟩
        · intro e he
          rcases List.mem_cons.mp he with h | h
          · rw [h]; exact hr
          · exact hshape e h
        · rw [List.pairwise_cons]
          refine ⟨?_, hsorted⟩
          intro e he
          rcases List.mem_cons.mp he with h | h
          · rw [h]; exact h2
          · exact strLtb_trans h2 (hxlt e h)
      · rw [if_neg h2]
        have hxr : strLtb x.chunkKey r.chunkKey = true :=
          strLtb_connex (fun hc => h1 hc.symm) (by revert h2; cases hv : strLtb r.chunkKey x.chunkKey <;> simp)
        obtain ⟨ih1, ih2⟩ := ih hshape2 hsorted2
        refine ⟨?_, ?_⟩
        · intro e he
          rcases List.mem_cons.mp he with h | h
          · rw [h]; exact hshape x (List.mem_cons_self x xs)
          · exact ih1 e h
        · rw [List.pairwise_cons]
          refine ⟨?_, ih2⟩
          intro e he
          rcases mem_of_mem_idbPutChunk xs r e he with h | h
          · exact hxlt e h
          · rw [h]; exact hxr

lemma mem_foldl_del : ∀ (l : List ChunkRec) (base : ChunkStore) (e : ChunkRec),
    e ∈ l.foldl (fun acc c => idbDelChunk acc c.chunkKey) base →
    e ∈ base ∧ ∀ c ∈ l, e.chunkKey ≠ c.chunkKey := by
  intro l
  induction l with
  | nil =>
    intro base e he
    exact ⟨he, fun c hc => absurd hc (List.not_mem_nil c)⟩
  | cons c0 cs ih =>
    intro base e he
    simp only [List.foldl_cons] at he
    obtain ⟨h1, h2⟩ := ih _ e he
    rw [idbDelChunk, List.mem_filter] at h1
    obtain ⟨hb, hp⟩ := h1
    refine ⟨hb, ?_⟩
    intro c hc
    rcases List.mem_cons.mp hc with h | h
    · subst h
      simp only [decide_eq_true_eq, beq_iff_eq] at hp
      exact hp
    · exact h2 c h

/-- C8 (amended): storeChunk upserts the chunk record under the key
    msgId:seq. On a well-formed store the sequence numbers stored for
    chunk.msgId after the insertion are pairwise distinct, and the result is
    non-null exactly when their number equals chunk.total (the code does not
    require the sequence numbers to lie in the range below total). On
    completion the returned list is exactly the stored records for that
    msgId, as chunk objects in the chunk-key string order of the store, and
    those records are deleted; otherwise the result is null and the records,
    including the new one, remain. -/
theorem C8_store_chunk (chunk : ChunkObj) (now : Int) (s : ChunkStore)
    (hwf : ChunkStoreWF s) :
    ((idbGetChunksByMsgId (idbPutChunk s (chunkRecOf chunk now)) chunk.msgId).map
        (fun r => r.seq)).Nodup ∧
    ((storeChunk chunk now s).1.isSome = true ↔
      (idbGetChunksByMsgId (idbPutChunk s (chunkRecOf chunk now)) chunk.msgId).length
        = chunk.total) ∧
    ((idbGetChunksByMsgId (idbPutChunk s (chunkRecOf chunk now)) chunk.msgId).length
        = chunk.total →
      (storeChunk chunk now s).1 =
        some ((idbGetChunksByMsgId (idbPutChunk s (chunkRecOf chunk now)) chunk.msgId).map
          (fun c => ⟨1, "dmesh-chunk", c.msgId, c.seq, c.total, c.data⟩)) ∧
      idbGetChunksByMsgId (storeChunk chunk now s).2 chunk.msgId = []) ∧
    ((idbGetChunksByMsgId (idbPutChunk s (chunkRecOf chunk now)) chunk.msgId).length
        ≠ chunk.total →
      (storeChunk chunk now s).2 = idbPutChunk s (chunkRecOf chunk now) ∧
      chunkRecOf chunk now ∈ (storeChunk chunk now s).2) := by
  have hwf1 : ChunkStoreWF (idbPutChunk s (chunkRecOf chunk now)) :=
    idbPutChunk_wf s (chunkRecOf chunk now) rfl hwf
  obtain ⟨hshape1, hsorted1⟩ := hwf1
  refine ⟨?_, ?_, ?_, ?_⟩
  · have hpf : (idbGetChunksByMsgId (idbPutChunk s (chunkRecOf chunk now))
        chunk.msgId).Pairwise (fun r1 r2 => strLtb r1.chunkKey r2.chunkKey = true) :=
      List.Pairwise.filter _ hsorted1
    have hps : (idbGetChunksByMsgId (idbPutChunk s (chunkRecOf chunk now))
        chunk.msgId).Pairwise (fun r1 r2 => r1.seq ≠ r2.seq) := by
      refine List.Pairwise.imp_of_mem ?_ hpf
      intro a b ha hb hlt hseq
      rw [idbGetChunksByMsgId, List.mem_filter] at ha hb
      have hma : a.msgId = chunk.msgId := by simpa using ha.2
      have hmb : b.msgId = chunk.msgId := by simpa using hb.2
      have hka := hshape1 a ha.1
      have hkb := hshape1 b hb.1
      have hkeq : a.chunkKey = b.chunkKey := by
        rw [hka, hkb, hma, hmb, hseq]
      rw [hkeq, strLtb_irrefl] at hlt
      exact absurd hlt (by simp)
    simpa [List.Nodup, List.pairwise_map] using hps
  · by_cases h : (idbGetChunksByMsgId (idbPutChunk s (chunkRecOf chunk now))
        chunk.msgId).length = chunk.total
    · simp [storeChunk, h]
    · simp [storeChunk, h]
  · intro h
    constructor
    · simp [storeChunk, h]
    · have hs2 : (storeChunk chunk now s).2 =
          (idbGetChunksByMsgId (idbPutChunk s (chunkRecOf chunk now))
            chunk.msgId).foldl (fun acc c => idbDelChunk acc c.chunkKey)
            (idbPutChunk s (chunkRecOf chunk now)) := by
        simp [storeChunk, h]
      rw [hs2, idbGetChunksByMsgId, List.filter_eq_nil_iff]
      intro e he
      obtain ⟨hbase, hkeys⟩ := mem_foldl_del _ _ e he
      intro hm
      have hmem : e ∈ idbGetChunksByMsgId (idbPutChunk s (chunkRecOf chunk now))
          chunk.msgId := by
        rw [idbGetChunksByMsgId, List.mem_filter]
        exact ⟨hbase, hm⟩
      exact hkeys e hmem rfl
  · intro h
    constructor
    · simp [storeChunk, h]
    · have hs2 : (storeChunk chunk now s).2 = idbPutChunk s (chunkRecOf chunk now) := by
        simp [storeChunk, h]
      rw [hs2]
      exact mem_idbPutChunk_self s (chunkRecOf chunk now)

/-- C8 witness: the amended theorem applied at a concrete chunk and the empty
    store (the uniqueness and count conjuncts, instantiated). -/
theorem C8_store_chunk_witness :
    ((idbGetChunksByMsgId (idbPutChunk []
        (chunkRecOf ⟨1, "dmesh-chunk", "w", 0, 1, "d"⟩ 0)) "w").map
        (fun r => r.seq)).Nodup ∧
    ((storeChunk ⟨1, "dmesh-chunk", "w", 0, 1, "d"⟩ 0 []).1.isSome = true ↔
      (idbGetChunksByMsgId (idbPutChunk []
        (chunkRecOf ⟨1, "dmesh-chunk", "w", 0, 1, "d"⟩ 0)) "w").length = 1) :=
  ⟨(C8_store_chunk ⟨1, "dmesh-chunk", "w", 0, 1, "d"⟩ 0 []
      ⟨fun r hr => absurd hr (List.not_mem_nil r), List.Pairwise.nil⟩).1,
   (C8_store_chunk ⟨1, "dmesh-chunk", "w", 0, 1, "d"⟩ 0 []
      ⟨fun r hr => absurd hr (List.not_mem_nil r), List.Pairwise.nil⟩).2.1⟩

/-- C8 counterexample: with a stored record for msgId m and seq 10 (key m:10)
    and an incoming chunk with seq 2 and total 2, storeChunk returns a
    non-null result whose two chunks have the sequence numbers 10 and 2, in
    that order: the completeness test counts records instead of checking that
    the sequence numbers are exactly the range below total, and the returned
    list follows the chunk-key string order (m:10 before m:2), not the
    numeric sequence order. -/
theorem C8_store_chunk_counterexample :
    (storeChunk ⟨1, "dmesh-chunk", "m", 2, 2, "x"⟩ 0
        [⟨"m:10", "m", 10, 2, "d", 0⟩]).1 =
      some [⟨1, "dmesh-chunk", "m", 10, 2, "d"⟩, ⟨1, "dmesh-chunk", "m", 2, 2, "x"⟩] := by
  rfl

-- ============================================================================
-- C10: contact key continuity
-- ============================================================================

lemma idbGetContact_put : ∀ (s : ContactStore) (e : ContactEntry),
    idbGetContact (idbPutContact s e) e.fp = some e := by
  intro s e
  induction s with
  | nil =>
    simp [idbPutContact, idbGetContact, List.find?]
  | cons x xs ih =>
    by_cases hx : (x.fp == e.fp) = true
    · have hany : (x :: xs).any (fun y => y.fp == e.fp) = true := by
        simp only [List.any_cons, Bool.or_eq_true]
        exact Or.inl hx
      rw [idbPutContact, if_pos hany, List.map_cons, if_pos hx, idbGetContact,
        List.find?_cons_of_pos _ (by simp)]
    · by_cases hxs : xs.any (fun y => y.fp == e.fp) = true
      · have hany : (x :: xs).any (fun y => y.fp == e.fp) = true := by
          simp only [List.any_cons, Bool.or_eq_true]
          exact Or.inr hxs
        rw [idbPutContact, if_pos hany, List.map_cons, if_neg hx, idbGetContact,
          @List.find?_cons_of_neg _ (fun y => y.fp == e.fp) x _ hx]
        have hih := ih
        rw [idbPutContact, if_pos hxs] at hih
        exact hih
      · have hany : ¬ ((x :: xs).any (fun y => y.fp == e.fp) = true) := by
          simp only [List.any_cons, Bool.or_eq_true]
          rintro (hc | hc)
          · exact hx hc
          · exact hxs hc
        rw [idbPutContact, if_neg hany, idbGetContact, List.cons_append,
          @List.find?_cons_of_neg _ (fun y => y.fp == e.fp) x _ hx, List.find?_append]
        have hall : List.find? (fun y => y.fp == e.fp) xs = none := by
          rw [List.find?_eq_none]
          intro y hy hc
          exact hxs (List.any_eq_true.mpr ⟨y, hy, hc⟩)
        rw [hall]
        simp [List.find?]

/-- C10: a recorded (signing, box) key pair is never changed silently:
    saveContact for an existing fingerprint keeps the stored signPK and boxPK
    unless the contact argument explicitly carries a replacement, and
    decryptMessage called with the recorded keys as expected sender keys
    returns a sender-key-mismatch error whenever the envelope sender-key
    fields differ from the recorded ones (the two mismatch errors are the
    SenderKeyMismatch class of the specification). The decrypt part holds for
    any envelope that passes the earlier checks: format, decode, lengths,
    validity window, message-id binding and recipient binding. -/
theorem C10_contact_key_continuity
    (contact : Contact) (cnow : Int) (s : ContactStore) (e : ContactEntry)
    (hex : idbGetContact s contact.fp = some e)
    (E : Envelope) (recipientBoxPK recipientBoxSK expSign expBox : Bytes)
    (rc : Option (String → String → Store → Bool × Store))
    (strictMode : Bool) (now : Int) (nacl : Nacl) (u : NaclUtil) (j : Json)
    (st : Store)
    (dss dsb drb dep dno dct dsg : Bytes)
    (hfmt1 : E.v = 1) (hfmt2 : E.kind = "dmesh-msg")
    (hd1 : u.decodeBase64 E.senderSignPK = some dss)
    (hd2 : u.decodeBase64 E.senderBoxPK = some dsb)
    (hd3 : u.decodeBase64 E.recipientBoxPK = some drb)
    (hd4 : u.decodeBase64 E.ephPK = some dep)
    (hd5 : u.decodeBase64 E.nonce = some dno)
    (hd6 : u.decodeBase64 E.ciphertext = some dct)
    (hd7 : u.decodeBase64 E.signature = some dsg)
    (hl1 : dss.length = signPublicKeyLength)
    (hl2 : dsb.length = boxPublicKeyLength)
    (hl3 : drb.length = boxPublicKeyLength)
    (hl4 : dep.length = boxPublicKeyLength)
    (hl5 : dno.length = nonceLength)
    (hl6 : dsg.length = signatureLength)
    (hvalid : isMessageValid E strictMode now = true)
    (hmsgid : E.msgId = none ∨
      E.msgId = some (u.encodeBase64 (messageIdFromCiphertext dct nacl)))
    (hrecip : u.encodeBase64 recipientBoxPK = E.recipientBoxPK)
    (hmis : ¬ (u.encodeBase64 expSign = E.senderSignPK ∧
      u.encodeBase64 expBox = E.senderBoxPK)) :
    ((idbGetContact (saveContact contact cnow s) contact.fp).map
        (fun r => r.signPK) = some (contact.signPK.or e.signPK) ∧
     (idbGetContact (saveContact contact cnow s) contact.fp).map
        (fun r => r.boxPK) = some (contact.boxPK.or e.boxPK)) ∧
    (decryptMessage (some E) recipientBoxPK recipientBoxSK (some expSign)
        (some expBox) rc strictMode now nacl u j st
        = (.error .senderSignKeyMismatch, st) ∨
     decryptMessage (some E) recipientBoxPK recipientBoxSK (some expSign)
        (some expBox) rc strictMode now nacl u j st
        = (.error .senderBoxKeyMismatch, st)) := by
  constructor
  · rw [saveContact]
    simp only [hex]
    rw [idbGetContact_put]
    constructor
    · cases contact.signPK <;> simp [Option.or]
    · cases contact.boxPK <;> simp [Option.or]
  · by_cases hsign : u.encodeBase64 expSign = E.senderSignPK
    · right
      have hbox : u.encodeBase64 expBox ≠ E.senderBoxPK := by
        intro hc
        exact hmis ⟨hsign, hc⟩
      rcases hmsgid with hm | hm <;>
        simp [decryptMessage, hfmt1, hfmt2, hd1, hd2, hd3, hd4, hd5, hd6, hd7,
          hl1, hl2, hl3, hl4, hl5, hl6, hvalid, hm, hrecip, hsign, hbox,
          jsTruthyStr]
    · left
      rcases hmsgid with hm | hm <;>
        simp [decryptMessage, hfmt1, hfmt2, hd1, hd2, hd3, hd4, hd5, hd6, hd7,
          hl1, hl2, hl3, hl4, hl5, hl6, hvalid, hm, hrecip, hsign,
          jsTruthyStr]

-- ============================================================================
-- Concrete instances for the closed evaluations
-- ============================================================================

/-- A concrete stand-in for the TweetNaCl-util codecs: bytes below 256 are
    mapped to the characters of their code points (an injective encoding with
    a total decoder, adequate for the concrete byte values used here). -/
def cUtil : NaclUtil :=
  { encodeBase64 := fun b => String.mk (b.map (fun n => Char.ofNat n)),
    decodeBase64 := fun s => some (s.data.map (fun c => c.toNat)),
    decodeUTF8 := fun s => s.data.map (fun c => c.toNat),
    encodeUTF8 := fun b => String.mk (b.map (fun n => Char.ofNat n)) }

/-- A concrete payload value. -/
def cPayload : Payload := payloadOf "hi" 0 none

/-- A concrete stand-in for the host JSON codec, exact at the payload and
    envelope values the closed evaluations use. -/
def cJson : Json :=
  { stringifyPayload := fun _ => "P",
    parsePayload := fun s => if s = "P" then some cPayload else none,
    stringifyEnvelope := fun _ => "E",
    parseEnvelope := fun _ => none }

/-- A concrete stand-in for the TweetNaCl primitives: the hash pads or
    truncates to 64 bytes, signatures are a constant 64-byte array that
    always verifies, and the box is the identity on the message. -/
def cNacl : Nacl :=
  { hash := fun b => (b ++ List.replicate 64 0).take 64,
    signDetached := fun _ _ => List.replicate 64 7,
    signVerify := fun _ _ _ => true,
    boxBefore := fun _ _ => [],
    boxAfter := fun m _ _ => some m,
    boxOpenAfter := fun c _ _ => some c }

def kA : Bytes := List.replicate 32 1

def kB : Bytes := List.replicate 32 2

def kR : Bytes := List.replicate 32 3

def kE : Bytes := List.replicate 32 4

def kN : Bytes := List.replicate 24 5

def kS : Bytes := List.replicate 64 7

def stEmpty : Store := { seen := [], inbox := [] }

/-- A concrete well-formed envelope for the sender-key-mismatch evaluation
    (no msgId, so the v1.0 message-id check is skipped). -/
def cEnvC10 : Envelope :=
  { v := 1, kind := "dmesh-msg", msgId := none, ts := 0, exp := some 1,
    senderSignPK := cUtil.encodeBase64 kA, senderBoxPK := cUtil.encodeBase64 kB,
    recipientBoxPK := cUtil.encodeBase64 kR, ephPK := cUtil.encodeBase64 kE,
    nonce := cUtil.encodeBase64 kN, ciphertext := cUtil.encodeBase64 [9],
    signature := cUtil.encodeBase64 kS }

/-- A concrete stored contact record. -/
def cEntry : ContactEntry :=
  { fp := "f", name := some "n", signPK := some "spk", boxPK := some "bpk",
    verified := "unverified", addedAt := 1, updatedAt := 1 }

/-- C10 witness: the theorem applied at a concrete store and envelope, with
    expected sender keys that differ from the envelope fields (the decrypt
    conjunct, instantiated). -/
theorem C10_contact_key_continuity_witness :
    decryptMessage (some cEnvC10) kR [] (some (List.replicate 32 11))
        (some kB) none false 0 cNacl cUtil cJson stEmpty
        = (.error .senderSignKeyMismatch, stEmpty) ∨
    decryptMessage (some cEnvC10) kR [] (some (List.replicate 32 11))
        (some kB) none false 0 cNacl cUtil cJson stEmpty
        = (.error .senderBoxKeyMismatch, stEmpty) :=
  (C10_contact_key_continuity ⟨"f", none, none, none, none⟩ 5 [cEntry] cEntry
    (by rfl) cEnvC10 kR [] (List.replicate 32 11) kB none false 0 cNacl cUtil
    cJson stEmpty kA kB kR kE kN [9] kS
    (by rfl) (by rfl)
    (by rfl) (by rfl) (by rfl) (by rfl) (by rfl) (by rfl) (by rfl)
    (by rfl) (by rfl) (by rfl) (by rfl) (by rfl) (by rfl)
    (by decide) (Or.inl rfl) (by rfl)
    (by decide)).2

-- ============================================================================
-- C3: recipient binding
-- ============================================================================

/-- C3: decryptMessage under a recipient key whose base64 encoding differs
    from the recipientBoxPK field of the envelope returns RecipientMismatch
    with the state unchanged, and does so for every box-open function: the
    NaCl box open is never performed in that run (the result does not depend
    on boxOpenAfter). Base64 encoding is injective, so a recipient key pair
    whose public key differs in bytes from the recorded one differs in its
    encoding, which is the stated hypothesis. The envelope is assumed to pass
    the checks that precede recipient binding: format, base64 decode, field
    lengths, validity window and message-id binding. -/
theorem C3_recipient_mismatch
    (E : Envelope) (recipientBoxPK recipientBoxSK : Bytes)
    (expS expB : Option Bytes)
    (rc : Option (String → String → Store → Bool × Store))
    (strictMode : Bool) (now : Int) (nacl : Nacl) (u : NaclUtil) (j : Json)
    (st : Store)
    (dss dsb drb dep dno dct dsg : Bytes)
    (hfmt1 : E.v = 1) (hfmt2 : E.kind = "dmesh-msg")
    (hd1 : u.decodeBase64 E.senderSignPK = some dss)
    (hd2 : u.decodeBase64 E.senderBoxPK = some dsb)
    (hd3 : u.decodeBase64 E.recipientBoxPK = some drb)
    (hd4 : u.decodeBase64 E.ephPK = some dep)
    (hd5 : u.decodeBase64 E.nonce = some dno)
    (hd6 : u.decodeBase64 E.ciphertext = some dct)
    (hd7 : u.decodeBase64 E.signature = some dsg)
    (hl1 : dss.length = signPublicKeyLength)
    (hl2 : dsb.length = boxPublicKeyLength)
    (hl3 : drb.length = boxPublicKeyLength)
    (hl4 : dep.length = boxPublicKeyLength)
    (hl5 : dno.length = nonceLength)
    (hl6 : dsg.length = signatureLength)
    (hvalid : isMessageValid E strictMode now = true)
    (hmsgid : E.msgId = none ∨
      E.msgId = some (u.encodeBase64 (messageIdFromCiphertext dct nacl)))
    (hrecip : u.encodeBase64 recipientBoxPK ≠ E.recipientBoxPK) :
    decryptMessage (some E) recipientBoxPK recipientBoxSK expS expB rc
        strictMode now nacl u j st = (.error .recipientMismatch, st) ∧
    ∀ f, decryptMessage (some E) recipientBoxPK recipientBoxSK expS expB rc
        strictMode now { nacl with boxOpenAfter := f } u j st
        = (.error .recipientMismatch, st) := by
  constructor
  · rcases hmsgid with hm | hm <;>
      simp [decryptMessage, hfmt1, hfmt2, hd1, hd2, hd3, hd4, hd5, hd6, hd7,
        hl1, hl2, hl3, hl4, hl5, hl6, hvalid, hm, hrecip, jsTruthyStr]
  · intro f
    rcases hmsgid with hm | hm <;>
      simp [decryptMessage, hfmt1, hfmt2, hd1, hd2, hd3, hd4, hd5, hd6, hd7,
        hl1, hl2, hl3, hl4, hl5, hl6, hvalid, hm, hrecip, jsTruthyStr,
        messageIdFromCiphertext]

/-- C3 witness: the theorem applied at a concrete envelope addressed to kR,
    decrypted under a different recipient key. -/
theorem C3_recipient_mismatch_witness :
    decryptMessage (some cEnvC10) (List.replicate 32 12) [] none none none
        false 0 cNacl cUtil cJson stEmpty = (.error .recipientMismatch, stEmpty) :=
  (C3_recipient_mismatch cEnvC10 (List.replicate 32 12) [] none none none
    false 0 cNacl cUtil cJson stEmpty kA kB kR kE kN [9] kS
    (by rfl) (by rfl)
    (by rfl) (by rfl) (by rfl) (by rfl) (by rfl) (by rfl) (by rfl)
    (by rfl) (by rfl) (by rfl) (by rfl) (by rfl) (by rfl)
    (by decide) (Or.inl rfl) (by decide)).1

-- ============================================================================
-- C1 and C6: encrypt-decrypt round trip and validity window
-- ============================================================================

lemma jsOr_some_jsOr (t : Option String) (d : String) (hd : d ≠ "") :
    jsOr (some (jsOr t d)) d = jsOr t d := by
  cases t with
  | none => simp [jsOr, hd]
  | some s => by_cases hs : s = "" <;> simp [jsOr, hs, hd]

/-- Core round-trip lemma: an envelope produced by encryptMessage decrypts to
    a success carrying the original content, timestamp and payload type,
    under the stated properties of the injected primitives (base64 round
    trips on the encrypted fields, the Diffie-Hellman shared key agreement
    expressed by hopen against the ciphertext sealed in hseal, signature
    correctness for the sender signing key pair, a replay check that allows
    the pair, and the JSON and UTF-8 round trip on the payload), with the
    current time at most the envelope expiration and strictMode off. -/
lemma decrypt_of_encrypt_core
    (content : String) (senderSignPK senderSignSK senderBoxPK recipientBoxPK recipientBoxSK : Bytes)
    (ts : Int) (ttlMs : Option Int) (type : Option String)
    (ephPK ephSK nonce : Bytes) (nacl : Nacl) (u : NaclUtil) (j : Json)
    (rc : String → String → Store → Bool × Store) (st st2 : Store) (now : Int)
    (pb ct sbytes sig : Bytes)
    (hpb : u.decodeUTF8 (j.stringifyPayload (payloadOf content ts type)) = pb)
    (hseal : nacl.boxAfter pb nonce (nacl.boxBefore recipientBoxPK ephSK) = some ct)
    (hsb : buildSignBytes senderSignPK senderBoxPK recipientBoxPK ephPK nonce ts ct u = sbytes)
    (hsigdef : nacl.signDetached sbytes senderSignSK = sig)
    (hb1 : u.decodeBase64 (u.encodeBase64 senderSignPK) = some senderSignPK)
    (hb2 : u.decodeBase64 (u.encodeBase64 senderBoxPK) = some senderBoxPK)
    (hb3 : u.decodeBase64 (u.encodeBase64 recipientBoxPK) = some recipientBoxPK)
    (hb4 : u.decodeBase64 (u.encodeBase64 ephPK) = some ephPK)
    (hb5 : u.decodeBase64 (u.encodeBase64 nonce) = some nonce)
    (hb6 : u.decodeBase64 (u.encodeBase64 ct) = some ct)
    (hb7 : u.decodeBase64 (u.encodeBase64 sig) = some sig)
    (hl1 : senderSignPK.length = signPublicKeyLength)
    (hl2 : senderBoxPK.length = boxPublicKeyLength)
    (hl3 : recipientBoxPK.length = boxPublicKeyLength)
    (hl4 : ephPK.length = boxPublicKeyLength)
    (hl5 : nonce.length = nonceLength)
    (hl6 : sig.length = signatureLength)
    (hvalid : now ≤ calculateExpiration ts ttlMs)
    (hver : nacl.signVerify sbytes sig senderSignPK = true)
    (hrc : rc (u.encodeBase64 (messageIdFromCiphertext ct nacl))
      (u.encodeBase64 (fingerprintFromSignPK senderSignPK nacl)) st = (true, st2))
    (hopen : nacl.boxOpenAfter ct nonce (nacl.boxBefore ephPK recipientBoxSK) = some pb)
    (hutf : u.encodeUTF8 pb = j.stringifyPayload (payloadOf content ts type))
    (hjson : j.parsePayload (j.stringifyPayload (payloadOf content ts type))
      = some (payloadOf content ts type)) :
    ∀ env, encryptMessage content senderSignPK senderSignSK senderBoxPK recipientBoxPK
        ts ttlMs type ephPK ephSK nonce nacl u j = .ok env →
      decryptMessage (some env) recipientBoxPK recipientBoxSK (some senderSignPK)
        (some senderBoxPK) (some rc) false now nacl u j st
        = (.ok { content := content, senderSignPK := senderSignPK,
                 senderBoxPK := senderBoxPK,
                 senderFp := fingerprintFromSignPK senderSignPK nacl,
                 ts := ts,
                 msgId := u.encodeBase64 (messageIdFromCiphertext ct nacl),
                 type := jsOr type "text",
                 payload := payloadOf content ts type }, st2) := by
  intro env henc
  by_cases hsz : MAX_BYTES < (u.decodeUTF8 content).length
  · simp only [encryptMessage, if_pos hsz] at henc
    cases henc
  · simp only [encryptMessage, if_neg hsz, hpb, hseal, hsb, hsigdef] at henc
    rw [Except.ok.injEq] at henc
    subst henc
    have hv : isMessageValid
        { v := 1, kind := "dmesh-msg",
          msgId := some (u.encodeBase64 (messageIdFromCiphertext ct nacl)),
          ts := ts, exp := some (calculateExpiration ts ttlMs),
          senderSignPK := u.encodeBase64 senderSignPK,
          senderBoxPK := u.encodeBase64 senderBoxPK,
          recipientBoxPK := u.encodeBase64 recipientBoxPK,
          ephPK := u.encodeBase64 ephPK, nonce := u.encodeBase64 nonce,
          ciphertext := u.encodeBase64 ct, signature := u.encodeBase64 sig }
        false now = true := by
      simp [isMessageValid, hvalid]
    simp only [payloadOf] at hjson
    simp only [decryptMessage, hb1, hb2, hb3, hb4, hb5, hb6, hb7, hv]
    simp [hl1, hl2, hl3, hl4, hl5, hl6, jsTruthyStr, hsb, hsigdef, hver, hrc,
      hopen, hutf, hjson, payloadOf, jsOr_some_jsOr type "text" (by decide)]

/-- C1: for content within MAX_BYTES and any sender signing and box keys,
    recipient box key, timestamp, ttl and type, the envelope produced by
    encryptMessage decrypts (strictMode off, current time at most the
    expiration, expected sender keys equal to the actual sender keys, replay
    check allowing the pair) to the same content, the same ts and the same
    payload type (the type stored in the encrypted payload is
    jsOr type "text", and that is what decryptMessage returns). The
    hypotheses state the required properties of the injected TweetNaCl, util
    and JSON primitives at exactly the values of this run: base64 round trips
    on the encrypted fields, box open of the sealed ciphertext under the
    Diffie-Hellman shared key, signature correctness, and the payload JSON
    and UTF-8 round trip. -/
theorem C1_roundtrip
    (content : String) (senderSignPK senderSignSK senderBoxPK recipientBoxPK recipientBoxSK : Bytes)
    (ts : Int) (ttlMs : Option Int) (type : Option String)
    (ephPK ephSK nonce : Bytes) (nacl : Nacl) (u : NaclUtil) (j : Json)
    (rc : String → String → Store → Bool × Store) (st st2 : Store) (now : Int)
    (pb ct sbytes sig : Bytes)
    (_hsz : (u.decodeUTF8 content).length ≤ MAX_BYTES)
    (hpb : u.decodeUTF8 (j.stringifyPayload (payloadOf content ts type)) = pb)
    (hseal : nacl.boxAfter pb nonce (nacl.boxBefore recipientBoxPK ephSK) = some ct)
    (hsb : buildSignBytes senderSignPK senderBoxPK recipientBoxPK ephPK nonce ts ct u = sbytes)
    (hsigdef : nacl.signDetached sbytes senderSignSK = sig)
    (hb1 : u.decodeBase64 (u.encodeBase64 senderSignPK) = some senderSignPK)
    (hb2 : u.decodeBase64 (u.encodeBase64 senderBoxPK) = some senderBoxPK)
    (hb3 : u.decodeBase64 (u.encodeBase64 recipientBoxPK) = some recipientBoxPK)
    (hb4 : u.decodeBase64 (u.encodeBase64 ephPK) = some ephPK)
    (hb5 : u.decodeBase64 (u.encodeBase64 nonce) = some nonce)
    (hb6 : u.decodeBase64 (u.encodeBase64 ct) = some ct)
    (hb7 : u.decodeBase64 (u.encodeBase64 sig) = some sig)
    (hl1 : senderSignPK.length = signPublicKeyLength)
    (hl2 : senderBoxPK.length = boxPublicKeyLength)
    (hl3 : recipientBoxPK.length = boxPublicKeyLength)
    (hl4 : ephPK.length = boxPublicKeyLength)
    (hl5 : nonce.length = nonceLength)
    (hl6 : sig.length = signatureLength)
    (hvalid : now ≤ calculateExpiration ts ttlMs)
    (hver : nacl.signVerify sbytes sig senderSignPK = true)
    (hrc : rc (u.encodeBase64 (messageIdFromCiphertext ct nacl))
      (u.encodeBase64 (fingerprintFromSignPK senderSignPK nacl)) st = (true, st2))
    (hopen : nacl.boxOpenAfter ct nonce (nacl.boxBefore ephPK recipientBoxSK) = some pb)
    (hutf : u.encodeUTF8 pb = j.stringifyPayload (payloadOf content ts type))
    (hjson : j.parsePayload (j.stringifyPayload (payloadOf content ts type))
      = some (payloadOf content ts type)) :
    ∀ env, encryptMessage content senderSignPK senderSignSK senderBoxPK recipientBoxPK
        ts ttlMs type ephPK ephSK nonce nacl u j = .ok env →
      decryptMessage (some env) recipientBoxPK recipientBoxSK (some senderSignPK)
        (some senderBoxPK) (some rc) false now nacl u j st
        = (.ok { content := content, senderSignPK := senderSignPK,
                 senderBoxPK := senderBoxPK,
                 senderFp := fingerprintFromSignPK senderSignPK nacl,
                 ts := ts,
                 msgId := u.encodeBase64 (messageIdFromCiphertext ct nacl),
                 type := jsOr type "text",
                 payload := payloadOf content ts type }, st2) :=
  decrypt_of_encrypt_core content senderSignPK senderSignSK senderBoxPK recipientBoxPK
    recipientBoxSK ts ttlMs type ephPK ephSK nonce nacl u j rc st st2 now pb ct
    sbytes sig hpb hseal hsb hsigdef hb1 hb2 hb3 hb4 hb5 hb6 hb7 hl1 hl2 hl3 hl4
    hl5 hl6 hvalid hver hrc hopen hutf hjson

/-- The envelope of the concrete round-trip run. -/
def cEnvC1 : Envelope :=
  (encryptMessage "hi" kA [] kB kR 0 none none kE [] kN cNacl cUtil cJson).toOption.getD
    { v := 0, kind := "", msgId := none, ts := 0, exp := none, senderSignPK := "",
      senderBoxPK := "", recipientBoxPK := "", ephPK := "", nonce := "",
      ciphertext := "", signature := "" }

/-- C1 witness: the round trip evaluated at a concrete run. -/
theorem C1_roundtrip_witness :
    encryptMessage "hi" kA [] kB kR 0 none none kE [] kN cNacl cUtil cJson = .ok cEnvC1 ∧
    decryptMessage (some cEnvC1) kR [] (some kA) (some kB)
        (some (fun _ _ s => (true, s))) false 0 cNacl cUtil cJson stEmpty
      = (.ok { content := "hi", senderSignPK := kA, senderBoxPK := kB,
               senderFp := fingerprintFromSignPK kA cNacl, ts := 0,
               msgId := cUtil.encodeBase64 (messageIdFromCiphertext [80] cNacl),
               type := jsOr none "text", payload := payloadOf "hi" 0 none }, stEmpty) := by
  constructor
  · rfl
  · exact C1_roundtrip "hi" kA [] kB kR [] 0 none none kE [] kN cNacl cUtil cJson
      (fun _ _ s => (true, s)) stEmpty stEmpty 0 [80] [80]
      (buildSignBytes kA kB kR kE kN 0 [80] cUtil) kS
      (by decide)
      (by rfl) (by rfl) (by rfl) (by rfl)
      (by rfl) (by rfl) (by rfl) (by rfl) (by rfl) (by rfl) (by rfl)
      (by rfl) (by rfl) (by rfl) (by rfl) (by rfl) (by rfl)
      (by decide)
      (by rfl) (by rfl) (by rfl)
      (by decide) (by decide)
      cEnvC1 (by rfl)

/-- C6: validity-window behavior of decryptMessage on a well-formed,
    correctly signed envelope addressed to the recipient (the envelope of a
    concrete encryptMessage run, whose exp field is ts plus the ttl). In
    non-strict mode the message decrypts when now is at most exp (in
    particular whenever exp is later than now) and returns MessageExpired
    when exp is earlier than now; in strict mode a skew beyond MAX_SKEW_MS
    returns TimestampSkew; and when exp is absent, isMessageValid uses
    ts + DEFAULT_TTL_MS as the bound. -/
theorem C6_validity_window
    (content : String) (senderSignPK senderSignSK senderBoxPK recipientBoxPK recipientBoxSK : Bytes)
    (ts : Int) (ttlMs : Option Int) (type : Option String)
    (ephPK ephSK nonce : Bytes) (nacl : Nacl) (u : NaclUtil) (j : Json)
    (rc : String → String → Store → Bool × Store) (st st2 : Store)
    (now1 now2 now3 now4 : Int)
    (pb ct sbytes sig : Bytes)
    (hsz : (u.decodeUTF8 content).length ≤ MAX_BYTES)
    (hpb : u.decodeUTF8 (j.stringifyPayload (payloadOf content ts type)) = pb)
    (hseal : nacl.boxAfter pb nonce (nacl.boxBefore recipientBoxPK ephSK) = some ct)
    (hsb : buildSignBytes senderSignPK senderBoxPK recipientBoxPK ephPK nonce ts ct u = sbytes)
    (hsigdef : nacl.signDetached sbytes senderSignSK = sig)
    (hb1 : u.decodeBase64 (u.encodeBase64 senderSignPK) = some senderSignPK)
    (hb2 : u.decodeBase64 (u.encodeBase64 senderBoxPK) = some senderBoxPK)
    (hb3 : u.decodeBase64 (u.encodeBase64 recipientBoxPK) = some recipientBoxPK)
    (hb4 : u.decodeBase64 (u.encodeBase64 ephPK) = some ephPK)
    (hb5 : u.decodeBase64 (u.encodeBase64 nonce) = some nonce)
    (hb6 : u.decodeBase64 (u.encodeBase64 ct) = some ct)
    (hb7 : u.decodeBase64 (u.encodeBase64 sig) = some sig)
    (hl1 : senderSignPK.length = signPublicKeyLength)
    (hl2 : senderBoxPK.length = boxPublicKeyLength)
    (hl3 : recipientBoxPK.length = boxPublicKeyLength)
    (hl4 : ephPK.length = boxPublicKeyLength)
    (hl5 : nonce.length = nonceLength)
    (hl6 : sig.length = signatureLength)
    (hver : nacl.signVerify sbytes sig senderSignPK = true)
    (hrc : rc (u.encodeBase64 (messageIdFromCiphertext ct nacl))
      (u.encodeBase64 (fingerprintFromSignPK senderSignPK nacl)) st = (true, st2))
    (hopen : nacl.boxOpenAfter ct nonce (nacl.boxBefore ephPK recipientBoxSK) = some pb)
    (hutf : u.encodeUTF8 pb = j.stringifyPayload (payloadOf content ts type))
    (hjson : j.parsePayload (j.stringifyPayload (payloadOf content ts type))
      = some (payloadOf content ts type)) :
    ∀ env, encryptMessage content senderSignPK senderSignSK senderBoxPK recipientBoxPK
        ts ttlMs type ephPK ephSK nonce nacl u j = .ok env →
      (now1 ≤ calculateExpiration ts ttlMs →
        decryptMessage (some env) recipientBoxPK recipientBoxSK (some senderSignPK)
          (some senderBoxPK) (some rc) false now1 nacl u j st
          = (.ok { content := content, senderSignPK := senderSignPK,
                   senderBoxPK := senderBoxPK,
                   senderFp := fingerprintFromSignPK senderSignPK nacl,
                   ts := ts,
                   msgId := u.encodeBase64 (messageIdFromCiphertext ct nacl),
                   type := jsOr type "text",
                   payload := payloadOf content ts type }, st2)) ∧
      (calculateExpiration ts ttlMs < now2 →
        decryptMessage (some env) recipientBoxPK recipientBoxSK (some senderSignPK)
          (some senderBoxPK) (some rc) false now2 nacl u j st
          = (.error .messageExpired, st)) ∧
      (MAX_SKEW_MS < (now3 - ts).natAbs →
        decryptMessage (some env) recipientBoxPK recipientBoxSK (some senderSignPK)
          (some senderBoxPK) (some rc) true now3 nacl u j st
          = (.error .timestampSkew, st)) ∧
      (isMessageValid { env with exp := none } false now4
        = decide (now4 ≤ ts + DEFAULT_TTL_MS)) := by
  intro env henc
  have hszn : ¬ MAX_BYTES < (u.decodeUTF8 content).length := by omega
  have henc2 := henc
  simp only [encryptMessage, if_neg hszn, hpb, hseal, hsb, hsigdef] at henc2
  rw [Except.ok.injEq] at henc2
  refine ⟨?_, ?_, ?_, ?_⟩
  · intro h
    exact decrypt_of_encrypt_core content senderSignPK senderSignSK senderBoxPK
      recipientBoxPK recipientBoxSK ts ttlMs type ephPK ephSK nonce nacl u j rc
      st st2 now1 pb ct sbytes sig hpb hseal hsb hsigdef hb1 hb2 hb3 hb4 hb5 hb6
      hb7 hl1 hl2 hl3 hl4 hl5 hl6 h hver hrc hopen hutf hjson env henc
  · intro h
    subst henc2
    have hlt : ¬ (now2 ≤ calculateExpiration ts ttlMs) := by omega
    simp [decryptMessage, hb1, hb2, hb3, hb4, hb5, hb6, hb7, hl1, hl2, hl3, hl4,
      hl5, hl6, isMessageValid, hlt]
  · intro h
    subst henc2
    have hsk : ¬ ((now3 - ts).natAbs ≤ MAX_SKEW_MS) := by omega
    simp [decryptMessage, hb1, hb2, hb3, hb4, hb5, hb6, hb7, hl1, hl2, hl3, hl4,
      hl5, hl6, isMessageValid, hsk]
  · subst henc2
    simp [isMessageValid]

/-- C6 witness: the exp-absent validity bound evaluated on the concrete
    round-trip envelope (the conjunct of the theorem without an
    antecedent). -/
theorem C6_validity_window_witness :
    isMessageValid { cEnvC1 with exp := none } false 5
      = decide ((5 : Int) ≤ 0 + DEFAULT_TTL_MS) :=
  (C6_validity_window "hi" kA [] kB kR [] 0 none none kE [] kN cNacl cUtil cJson
    (fun _ _ s => (true, s)) stEmpty stEmpty 0 0 0 5 [80] [80]
    (buildSignBytes kA kB kR kE kN 0 [80] cUtil) kS
    (by decide)
    (by rfl) (by rfl) (by rfl) (by rfl)
    (by rfl) (by rfl) (by rfl) (by rfl) (by rfl) (by rfl) (by rfl)
    (by rfl) (by rfl) (by rfl) (by rfl) (by rfl) (by rfl)
    (by rfl) (by rfl) (by rfl)
    (by decide) (by decide)
    cEnvC1 (by rfl)).2.2.2

-- ============================================================================
-- C4: no store writes on failed decrypt
-- ============================================================================

lemma idbPutSeen_inbox (st : Store) (e : SeenEntry) : (idbPutSeen st e).inbox = st.inbox := by
  unfold idbPutSeen
  split <;> rfl

/-- C4 (amended): with the replay check wired to checkAndMarkSeen, a
    decryptMessage run never writes to the inbox, and a run that ends in an
    error leaves the store unchanged unless the error is DecryptionFailed or
    PayloadParseFailed (the two failures after the replay check, which leave
    the pair marked seen). In particular ReplayDetected leaves the store
    unchanged. -/
theorem C4_no_writes_on_error
    (msg : Option Envelope) (recipientBoxPK recipientBoxSK : Bytes)
    (expS expB : Option Bytes) (rnow : Int)
    (strictMode : Bool) (now : Int) (nacl : Nacl) (u : NaclUtil) (j : Json)
    (st : Store) :
    (((decryptMessage msg recipientBoxPK recipientBoxSK expS expB
        (some (fun m f s => checkAndMarkSeen m f rnow s)) strictMode now nacl u j st).2).inbox
      = st.inbox) ∧
    (∀ e st2, decryptMessage msg recipientBoxPK recipientBoxSK expS expB
        (some (fun m f s => checkAndMarkSeen m f rnow s)) strictMode now nacl u j st
        = (.error e, st2) →
      (st2 = st ∨ e = .decryptionFailed ∨ e = .payloadParseFailed)) := by
  rcases msg with _ | message
  · simp [decryptMessage]
  by_cases hfmt : message.v ≠ 1 ∨ message.kind ≠ "dmesh-msg"
  · simp [decryptMessage, hfmt]
  rcases hd1 : u.decodeBase64 message.senderSignPK with _ | dss
  · simp [decryptMessage, hfmt, hd1]
  rcases hd2 : u.decodeBase64 message.senderBoxPK with _ | dsb
  · simp [decryptMessage, hfmt, hd1, hd2]
  rcases hd3 : u.decodeBase64 message.recipientBoxPK with _ | drb
  · simp [decryptMessage, hfmt, hd1, hd2, hd3]
  rcases hd4 : u.decodeBase64 message.ephPK with _ | dep
  · simp [decryptMessage, hfmt, hd1, hd2, hd3, hd4]
  rcases hd5 : u.decodeBase64 message.nonce with _ | dno
  · simp [decryptMessage, hfmt, hd1, hd2, hd3, hd4, hd5]
  rcases hd6 : u.decodeBase64 message.ciphertext with _ | dct
  · simp [decryptMessage, hfmt, hd1, hd2, hd3, hd4, hd5, hd6]
  rcases hd7 : u.decodeBase64 message.signature with _ | dsg
  · simp [decryptMessage, hfmt, hd1, hd2, hd3, hd4, hd5, hd6, hd7]
  by_cases hl1 : dss.length = signPublicKeyLength
  case neg => simp [decryptMessage, hfmt, hd1, hd2, hd3, hd4, hd5, hd6, hd7, hl1]
  by_cases hl2 : dsb.length = boxPublicKeyLength
  case neg => simp [decryptMessage, hfmt, hd1, hd2, hd3, hd4, hd5, hd6, hd7, hl1, hl2]
  by_cases hl3 : drb.length = boxPublicKeyLength
  case neg => simp [decryptMessage, hfmt, hd1, hd2, hd3, hd4, hd5, hd6, hd7, hl1, hl2, hl3]
  by_cases hl4 : dep.length = boxPublicKeyLength
  case neg => simp [decryptMessage, hfmt, hd1, hd2, hd3, hd4, hd5, hd6, hd7, hl1, hl2, hl3, hl4]
  by_cases hl5 : dno.length = nonceLength
  case neg => simp [decryptMessage, hfmt, hd1, hd2, hd3, hd4, hd5, hd6, hd7, hl1, hl2, hl3, hl4, hl5]
  by_cases hl6 : dsg.length = signatureLength
  case neg => simp [decryptMessage, hfmt, hd1, hd2, hd3, hd4, hd5, hd6, hd7, hl1, hl2, hl3, hl4, hl5, hl6]
  by_cases hval : isMessageValid message strictMode now = true
  case neg =>
    rcases hsm : strictMode <;>
      simp [decryptMessage, hfmt, hd1, hd2, hd3, hd4, hd5, hd6, hd7, hl1, hl2,
        hl3, hl4, hl5, hl6, hsm ▸ hval]
  by_cases hmid : jsTruthyStr message.msgId = true ∧
      message.msgId ≠ some (u.encodeBase64 (messageIdFromCiphertext dct nacl))
  · simp [decryptMessage, hfmt, hd1, hd2, hd3, hd4, hd5, hd6, hd7, hl1, hl2,
      hl3, hl4, hl5, hl6, hval, hmid]
  by_cases hrec : u.encodeBase64 recipientBoxPK = message.recipientBoxPK
  case neg =>
    simp [decryptMessage, hfmt, hd1, hd2, hd3, hd4, hd5, hd6, hd7, hl1, hl2,
      hl3, hl4, hl5, hl6, hval, hmid, hrec]
  suffices htail :
      (((decryptMessage (some message) recipientBoxPK recipientBoxSK none none
          (some (fun m f s => checkAndMarkSeen m f rnow s)) strictMode now nacl u j st).2).inbox
        = st.inbox) ∧
      (∀ e st2, decryptMessage (some message) recipientBoxPK recipientBoxSK none none
          (some (fun m f s => checkAndMarkSeen m f rnow s)) strictMode now nacl u j st
          = (.error e, st2) →
        (st2 = st ∨ e = .decryptionFailed ∨ e = .payloadParseFailed)) by
    rcases expS with _ | ek
    · rcases expB with _ | bk
      · exact htail
      · by_cases hbk : u.encodeBase64 bk = message.senderBoxPK
        · have hrw : decryptMessage (some message) recipientBoxPK recipientBoxSK none
              (some bk) (some (fun m f s => checkAndMarkSeen m f rnow s)) strictMode
              now nacl u j st
              = decryptMessage (some message) recipientBoxPK recipientBoxSK none none
              (some (fun m f s => checkAndMarkSeen m f rnow s)) strictMode now nacl u j st := by
            simp [decryptMessage, hfmt, hd1, hd2, hd3, hd4, hd5, hd6, hd7, hl1,
              hl2, hl3, hl4, hl5, hl6, hval, hmid, hrec, hbk]
          rw [hrw]
          exact htail
        · simp [decryptMessage, hfmt, hd1, hd2, hd3, hd4, hd5, hd6, hd7, hl1,
            hl2, hl3, hl4, hl5, hl6, hval, hmid, hrec, hbk]
    · by_cases hek : u.encodeBase64 ek = message.senderSignPK
      · have hrw0 : ∀ eb, decryptMessage (some message) recipientBoxPK recipientBoxSK
            (some ek) eb (some (fun m f s => checkAndMarkSeen m f rnow s)) strictMode
            now nacl u j st
            = decryptMessage (some message) recipientBoxPK recipientBoxSK none eb
            (some (fun m f s => checkAndMarkSeen m f rnow s)) strictMode now nacl u j st := by
          intro eb
          simp [decryptMessage, hfmt, hd1, hd2, hd3, hd4, hd5, hd6, hd7, hl1,
            hl2, hl3, hl4, hl5, hl6, hval, hmid, hrec, hek]
        rw [hrw0]
        rcases expB with _ | bk
        · exact htail
        · by_cases hbk : u.encodeBase64 bk = message.senderBoxPK
          · have hrw : decryptMessage (some message) recipientBoxPK recipientBoxSK none
                (some bk) (some (fun m f s => checkAndMarkSeen m f rnow s)) strictMode
                now nacl u j st
                = decryptMessage (some message) recipientBoxPK recipientBoxSK none none
                (some (fun m f s => checkAndMarkSeen m f rnow s)) strictMode now nacl u j st := by
              simp [decryptMessage, hfmt, hd1, hd2, hd3, hd4, hd5, hd6, hd7, hl1,
                hl2, hl3, hl4, hl5, hl6, hval, hmid, hrec, hbk]
            rw [hrw]
            exact htail
          · simp [decryptMessage, hfmt, hd1, hd2, hd3, hd4, hd5, hd6, hd7, hl1,
              hl2, hl3, hl4, hl5, hl6, hval, hmid, hrec, hbk]
      · simp [decryptMessage, hfmt, hd1, hd2, hd3, hd4, hd5, hd6, hd7, hl1,
          hl2, hl3, hl4, hl5, hl6, hval, hmid, hrec, hek]
  by_cases hver : nacl.signVerify (buildSignBytes dss dsb drb dep dno message.ts dct u)
      dsg dss = false
  · simp [decryptMessage, hfmt, hd1, hd2, hd3, hd4, hd5, hd6, hd7, hl1, hl2,
      hl3, hl4, hl5, hl6, hval, hmid, hrec, hver]
  rcases hg : idbGetSeen st (makeSeenKey (u.encodeBase64 (messageIdFromCiphertext dct nacl))
      (u.encodeBase64 (fingerprintFromSignPK dss nacl))) with _ | entry
  · rcases ho : nacl.boxOpenAfter dct dno (nacl.boxBefore dep recipientBoxSK) with _ | pt
    · simp [decryptMessage, hfmt, hd1, hd2, hd3, hd4, hd5, hd6, hd7, hl1, hl2,
        hl3, hl4, hl5, hl6, hval, hmid, hrec, hver, checkAndMarkSeen, hg, ho,
        idbPutSeen_inbox]
    · rcases hp : j.parsePayload (u.encodeUTF8 pt) with _ | payload <;>
        simp [decryptMessage, hfmt, hd1, hd2, hd3, hd4, hd5, hd6, hd7, hl1, hl2,
          hl3, hl4, hl5, hl6, hval, hmid, hrec, hver, checkAndMarkSeen, hg, ho, hp,
          idbPutSeen_inbox]
  · simp [decryptMessage, hfmt, hd1, hd2, hd3, hd4, hd5, hd6, hd7, hl1, hl2,
      hl3, hl4, hl5, hl6, hval, hmid, hrec, hver, checkAndMarkSeen, hg]

/-- The concrete TweetNaCl stand-in whose box open fails (as it does for an
    envelope whose ciphertext does not open under the derived shared key). -/
def cNaclOpenFail : Nacl :=
  { cNacl with boxOpenAfter := fun _ _ _ => none }

/-- C4 counterexample: a run that passes the replay check and then fails at
    box open ends in the DecryptionFailed error with the pair already
    inserted into the seen store: the seen-set is not left unchanged by a
    failed decrypt, contrary to the claim. -/
theorem C4_counterexample :
    (decryptMessage (some cEnvC1) kR [] (some kA) (some kB)
        (some (fun m f s => checkAndMarkSeen m f 0 s)) false 0 cNaclOpenFail
        cUtil cJson stEmpty).1 = .error .decryptionFailed ∧
    ((decryptMessage (some cEnvC1) kR [] (some kA) (some kB)
        (some (fun m f s => checkAndMarkSeen m f 0 s)) false 0 cNaclOpenFail
        cUtil cJson stEmpty).2).seen ≠ stEmpty.seen := by
  constructor
  · rfl
  · decide

/-- C4 witness: the amended theorem applied at a concrete erroneous run. -/
theorem C4_no_writes_on_error_witness :
    ((decryptMessage none kR [] none none
        (some (fun m f s => checkAndMarkSeen m f 0 s)) false 0 cNacl cUtil cJson
        stEmpty).2).inbox = stEmpty.inbox ∧
    (stEmpty = stEmpty ∨ DecryptError.invalidMessageFormat = .decryptionFailed ∨
      DecryptError.invalidMessageFormat = .payloadParseFailed) :=
  ⟨(C4_no_writes_on_error none kR [] none none 0 false 0 cNacl cUtil cJson stEmpty).1,
   (C4_no_writes_on_error none kR [] none none 0 false 0 cNacl cUtil cJson stEmpty).2
     .invalidMessageFormat stEmpty (by rfl)⟩

-- ============================================================================
-- C2: tamper rejection
-- ============================================================================

/-- Flip bit k of the character at index i of a string: the wire-level
    single-bit corruption of an envelope field (the fields are ASCII, where
    code points are code units). -/
def flipCharList : Nat → Nat → List Char → List Char
  | _, _, [] => []
  | 0, k, c :: cs => Char.ofNat (c.toNat ^^^ 2 ^ k) :: cs
  | i + 1, k, c :: cs => c :: flipCharList i k cs

def flipStringBit (s : String) (i k : Nat) : String :=
  String.mk (flipCharList i k s.data)

/-- True of a decryptMessage outcome that is an error raised before the NaCl
    box open: every error except DecryptionFailed and PayloadParseFailed and
    the replay error. -/
def preOpenError : Except DecryptError DecryptResult → Bool
  | .error .decryptionFailed => false
  | .error .payloadParseFailed => false
  | .error .replayDetected => false
  | .error _ => true
  | .ok _ => false

def isOkResult : Except DecryptError DecryptResult → Bool
  | .ok _ => true
  | .error _ => false

/-- C2 (amended): an envelope whose recomputed SignBytes no longer verify
    under its signature and sender signing key (the situation after any
    effective tamper of a SignBytes-covered field) is rejected before the
    NaCl box open, with the state unchanged: for every box-open function the
    run returns the same pre-box-open error (SignatureInvalid when all
    earlier checks pass, otherwise the error of the first failing earlier
    check: InvalidMessageFormat, Base64DecodeFailed, InvalidKeyLength,
    TimestampSkew or MessageExpired, MessageIdMismatch, or
    RecipientMismatch), independent of boxOpenAfter. -/
theorem C2_tamper_rejected
    (E : Envelope) (recipientBoxPK recipientBoxSK : Bytes)
    (rc : Option (String → String → Store → Bool × Store))
    (strictMode : Bool) (now : Int) (nacl : Nacl) (u : NaclUtil) (j : Json)
    (st : Store)
    (hver : nacl.signVerify
      (buildSignBytes ((u.decodeBase64 E.senderSignPK).getD [])
        ((u.decodeBase64 E.senderBoxPK).getD [])
        ((u.decodeBase64 E.recipientBoxPK).getD [])
        ((u.decodeBase64 E.ephPK).getD [])
        ((u.decodeBase64 E.nonce).getD []) E.ts
        ((u.decodeBase64 E.ciphertext).getD []) u)
      ((u.decodeBase64 E.signature).getD [])
      ((u.decodeBase64 E.senderSignPK).getD []) = false) :
    ∀ f, preOpenError (decryptMessage (some E) recipientBoxPK recipientBoxSK none none
        rc strictMode now { nacl with boxOpenAfter := f } u j st).1 = true ∧
      (decryptMessage (some E) recipientBoxPK recipientBoxSK none none
        rc strictMode now { nacl with boxOpenAfter := f } u j st).2 = st ∧
      decryptMessage (some E) recipientBoxPK recipientBoxSK none none
        rc strictMode now { nacl with boxOpenAfter := f } u j st
        = decryptMessage (some E) recipientBoxPK recipientBoxSK none none
          rc strictMode now nacl u j st := by
  intro f
  by_cases hfmt : E.v ≠ 1 ∨ E.kind ≠ "dmesh-msg"
  · refine ⟨?_, ?_, ?_⟩ <;> simp [preOpenError, decryptMessage, hfmt]
  rcases hd1 : u.decodeBase64 E.senderSignPK with _ | dss
  · refine ⟨?_, ?_, ?_⟩ <;> simp [preOpenError, decryptMessage, hfmt, hd1]
  rcases hd2 : u.decodeBase64 E.senderBoxPK with _ | dsb
  · refine ⟨?_, ?_, ?_⟩ <;> simp [preOpenError, decryptMessage, hfmt, hd1, hd2]
  rcases hd3 : u.decodeBase64 E.recipientBoxPK with _ | drb
  · refine ⟨?_, ?_, ?_⟩ <;> simp [preOpenError, decryptMessage, hfmt, hd1, hd2, hd3]
  rcases hd4 : u.decodeBase64 E.ephPK with _ | dep
  · refine ⟨?_, ?_, ?_⟩ <;> simp [preOpenError, decryptMessage, hfmt, hd1, hd2, hd3, hd4]
  rcases hd5 : u.decodeBase64 E.nonce with _ | dno
  · refine ⟨?_, ?_, ?_⟩ <;>
      simp [preOpenError, decryptMessage, hfmt, hd1, hd2, hd3, hd4, hd5]
  rcases hd6 : u.decodeBase64 E.ciphertext with _ | dct
  · refine ⟨?_, ?_, ?_⟩ <;>
      simp [preOpenError, decryptMessage, hfmt, hd1, hd2, hd3, hd4, hd5, hd6]
  rcases hd7 : u.decodeBase64 E.signature with _ | dsg
  · refine ⟨?_, ?_, ?_⟩ <;>
      simp [preOpenError, decryptMessage, hfmt, hd1, hd2, hd3, hd4, hd5, hd6, hd7]
  by_cases hl1 : dss.length = signPublicKeyLength
  case neg =>
    refine ⟨?_, ?_, ?_⟩ <;>
      simp [preOpenError, decryptMessage, hfmt, hd1, hd2, hd3, hd4, hd5, hd6, hd7, hl1]
  by_cases hl2 : dsb.length = boxPublicKeyLength
  case neg =>
    refine ⟨?_, ?_, ?_⟩ <;>
      simp [preOpenError, decryptMessage, hfmt, hd1, hd2, hd3, hd4, hd5, hd6, hd7, hl1, hl2]
  by_cases hl3 : drb.length = boxPublicKeyLength
  case neg =>
    refine ⟨?_, ?_, ?_⟩ <;>
      simp [preOpenError, decryptMessage, hfmt, hd1, hd2, hd3, hd4, hd5, hd6, hd7,
        hl1, hl2, hl3]
  by_cases hl4 : dep.length = boxPublicKeyLength
  case neg =>
    refine ⟨?_, ?_, ?_⟩ <;>
      simp [preOpenError, decryptMessage, hfmt, hd1, hd2, hd3, hd4, hd5, hd6, hd7,
        hl1, hl2, hl3, hl4]
  by_cases hl5 : dno.length = nonceLength
  case neg =>
    refine ⟨?_, ?_, ?_⟩ <;>
      simp [preOpenError, decryptMessage, hfmt, hd1, hd2, hd3, hd4, hd5, hd6, hd7,
        hl1, hl2, hl3, hl4, hl5]
  by_cases hl6 : dsg.length = signatureLength
  case neg =>
    refine ⟨?_, ?_, ?_⟩ <;>
      simp [preOpenError, decryptMessage, hfmt, hd1, hd2, hd3, hd4, hd5, hd6, hd7,
        hl1, hl2, hl3, hl4, hl5, hl6]
  by_cases hval : isMessageValid E strictMode now = true
  case neg =>
    rcases hsm : strictMode <;>
      · refine ⟨?_, ?_, ?_⟩ <;>
          simp [preOpenError, decryptMessage, hfmt, hd1, hd2, hd3, hd4, hd5, hd6,
            hd7, hl1, hl2, hl3, hl4, hl5, hl6, hsm ▸ hval]
  by_cases hmid : jsTruthyStr E.msgId = true ∧
      E.msgId ≠ some (u.encodeBase64 ((nacl.hash dct).take 32))
  · refine ⟨?_, ?_, ?_⟩ <;>
      simp [preOpenError, decryptMessage, hfmt, hd1, hd2, hd3, hd4, hd5, hd6, hd7,
        hl1, hl2, hl3, hl4, hl5, hl6, hval, hmid, messageIdFromCiphertext]
  by_cases hrec : u.encodeBase64 recipientBoxPK = E.recipientBoxPK
  case neg =>
    refine ⟨?_, ?_, ?_⟩ <;>
      simp [preOpenError, decryptMessage, hfmt, hd1, hd2, hd3, hd4, hd5, hd6, hd7,
        hl1, hl2, hl3, hl4, hl5, hl6, hval, hmid, hrec, messageIdFromCiphertext]
  simp only [hd1, hd2, hd3, hd4, hd5, hd6, hd7, Option.getD_some] at hver
  refine ⟨?_, ?_, ?_⟩ <;>
    simp [preOpenError, decryptMessage, hfmt, hd1, hd2, hd3, hd4, hd5, hd6, hd7,
      hl1, hl2, hl3, hl4, hl5, hl6, hval, hmid, hrec, hver, messageIdFromCiphertext]

/-- The concrete TweetNaCl stand-in whose signature verification rejects (as
    a real verifier does on SignBytes recomputed from a tampered field). -/
def cNaclVerFail : Nacl := { cNacl with signVerify := fun _ _ _ => false }

/-- C2 witness: the amended theorem applied at a concrete envelope whose
    signature verifies nothing, with a concrete box-open function. -/
theorem C2_tamper_rejected_witness :
    preOpenError (decryptMessage (some cEnvC1) kR [] none none none false 0
        { cNaclVerFail with boxOpenAfter := fun _ _ _ => none } cUtil cJson
        stEmpty).1 = true ∧
    (decryptMessage (some cEnvC1) kR [] none none none false 0
        { cNaclVerFail with boxOpenAfter := fun _ _ _ => none } cUtil cJson
        stEmpty).2 = stEmpty ∧
    decryptMessage (some cEnvC1) kR [] none none none false 0
        { cNaclVerFail with boxOpenAfter := fun _ _ _ => none } cUtil cJson stEmpty
      = decryptMessage (some cEnvC1) kR [] none none none false 0 cNaclVerFail
        cUtil cJson stEmpty :=
  C2_tamper_rejected cEnvC1 kR [] none false 0 cNaclVerFail cUtil cJson stEmpty
    (by rfl) (fun _ _ _ => none)

/-- The concrete envelope with one bit flipped in the ciphertext field. -/
def cEnvC2 : Envelope :=
  { cEnvC1 with ciphertext := flipStringBit cEnvC1.ciphertext 0 0 }

/-- C2 counterexample: the original envelope decrypts, but flipping one bit
    of its ciphertext field makes decryptMessage return MessageIdMismatch,
    not SignatureInvalid and not a decode or key-length error: for a v1.1
    envelope, which carries msgId, the message-id binding check precedes the
    signature check, so the claim, as stated for the ciphertext, is false
    (MessageIdMismatch is a constructor distinct from signatureInvalid,
    base64DecodeFailed and every invalidKeyLength value). -/
theorem C2_counterexample :
    isOkResult (decryptMessage (some cEnvC1) kR [] none none none false 0 cNacl
        cUtil cJson stEmpty).1 = true ∧
    (decryptMessage (some cEnvC2) kR [] none none none false 0 cNacl cUtil cJson
        stEmpty).1 = .error .messageIdMismatch ∧
    DecryptError.messageIdMismatch ≠ .signatureInvalid ∧
    DecryptError.messageIdMismatch ≠ .base64DecodeFailed := by
  exact ⟨rfl, rfl, by decide, by decide⟩

-- ============================================================================
-- C7: chunk round trip
-- ============================================================================

lemma ceil_mul_ge (l ds : Nat) (hds : 0 < ds) : l ≤ ((l + ds - 1) / ds) * ds := by
  rcases Nat.eq_zero_or_pos l with hl | hl
  · simp [hl]
  · have h1 := Nat.div_add_mod (l + ds - 1) ds
    have h2 : (l + ds - 1) % ds < ds := Nat.mod_lt _ hds
    have h3 : ((l + ds - 1) / ds) * ds = ds * ((l + ds - 1) / ds) := Nat.mul_comm _ _
    omega

lemma ceil_pos (l ds : Nat) (hl : 0 < l) (hds : 0 < ds) : 0 < (l + ds - 1) / ds := by
  have h1 : 1 ≤ (l + ds - 1) / ds := by
    rw [Nat.le_div_iff_mul_le hds]
    omega
  omega

/-- Concatenating the ds-sized contiguous slices of a list recovers the
    list. -/
lemma flatten_slices (ds : Nat) (_hds : 0 < ds) :
    ∀ (t : Nat) (l : Bytes), l.length ≤ t * ds →
      ((List.range t).map (fun i => (l.drop (i * ds)).take ds)).flatten = l := by
  intro t
  induction t with
  | zero =>
    intro l hl
    simp only [Nat.zero_mul, Nat.le_zero] at hl
    rw [List.length_eq_zero] at hl
    subst hl
    rfl
  | succ k ih =>
    intro l hl
    rw [List.range_succ_eq_map, List.map_cons, List.map_map, List.flatten_cons]
    have hcomp : ((fun i => (l.drop (i * ds)).take ds) ∘ Nat.succ)
        = fun i => ((l.drop ds).drop (i * ds)).take ds := by
      funext i
      simp only [Function.comp_apply, List.drop_drop]
      congr 2
      rw [Nat.succ_mul]
      omega
    have hlen : (l.drop ds).length ≤ k * ds := by
      rw [Nat.succ_mul] at hl
      simp only [List.length_drop]
      omega
    rw [hcomp, ih (l.drop ds) hlen]
    simp only [Nat.zero_mul, List.drop_zero]
    exact List.take_append_drop ds l

/-- A permutation of a list that is sorted by seq with pairwise distinct seq
    values and is itself sorted by seq is the list itself. -/
lemma sorted_perm_unique :
    ∀ (l1 l2 : List ChunkObj), l1.Perm l2 →
      l1.Pairwise (fun a b => a.seq ≤ b.seq) →
      l2.Pairwise (fun a b => a.seq ≤ b.seq) →
      (l1.map (fun c => c.seq)).Nodup → l1 = l2 := by
  intro l1
  induction l1 with
  | nil =>
    intro l2 hp _ _ _
    exact (List.Perm.nil_eq hp)
  | cons a t1 ih =>
    intro l2 hp hs1 hs2 hnd
    cases l2 with
    | nil =>
      have := hp.length_eq
      simp at this
    | cons b t2 =>
      by_cases hab : a = b
      · subst hab
        have hp2 := hp.cons_inv
        have hnd2 : (t1.map (fun c => c.seq)).Nodup := by
          rw [List.map_cons, List.nodup_cons] at hnd
          exact hnd.2
        have := ih t2 hp2 (List.pairwise_cons.mp hs1).2 (List.pairwise_cons.mp hs2).2 hnd2
        rw [this]
      · have haIn : a ∈ b :: t2 := hp.subset (List.mem_cons_self a t1)
        have hbIn : b ∈ a :: t1 := hp.symm.subset (List.mem_cons_self b t2)
        have ha2 : a ∈ t2 := by
          rcases List.mem_cons.mp haIn with h | h
          · exact absurd h hab
          · exact h
        have hb1 : b ∈ t1 := by
          rcases List.mem_cons.mp hbIn with h | h
          · exact absurd h.symm hab
          · exact h
        have h1 : a.seq ≤ b.seq := (List.pairwise_cons.mp hs1).1 b hb1
        have h2 : b.seq ≤ a.seq := (List.pairwise_cons.mp hs2).1 a ha2
        have hseq : a.seq = b.seq := le_antisymm h1 h2
        exfalso
        have hmem : a.seq ∈ t1.map (fun c => c.seq) := by
          rw [hseq]
          exact List.mem_map_of_mem _ hb1
        rw [List.map_cons, List.nodup_cons] at hnd
        exact hnd.1 hmem

lemma mapM_decode (u : NaclUtil) (g : ChunkObj → Bytes) :
    ∀ (l : List ChunkObj), (∀ c ∈ l, u.decodeBase64 c.data = some (g c)) →
      l.mapM (fun c => u.decodeBase64 c.data) = some (l.map g) := by
  intro l
  induction l with
  | nil => intro _; rfl
  | cons c cs ih =>
    intro h
    rw [List.mapM_cons, h c (List.mem_cons_self c cs),
      ih (fun x hx => h x (List.mem_cons_of_mem c hx))]
    rfl

lemma seqCheck_range' (f : Nat → ChunkObj) (hf : ∀ i, (f i).seq = i) :
    ∀ (n k : Nat), seqCheck k ((List.range' k n).map f) = true := by
  intro n
  induction n with
  | zero => intro k; rfl
  | succ m ih =>
    intro k
    rw [List.range'_succ, List.map_cons]
    simp only [seqCheck, hf k, beq_self_eq_true, Bool.true_and]
    exact ih (k + 1)

/-- Reassembly of any permutation of the chunk list that chunkMessage
    produces yields the original envelope. -/
lemma reassemble_of_chunks (u : NaclUtil) (j : Json) (E : Envelope)
    (msgBytes : Bytes) (ds total : Nat) (mid : String)
    (hdsp : 0 < ds)
    (hlen : msgBytes.length ≤ total * ds)
    (htpos : 0 < total)
    (hb : ∀ i, i < total → u.decodeBase64 (u.encodeBase64 ((msgBytes.drop (i * ds)).take ds))
        = some ((msgBytes.drop (i * ds)).take ds))
    (hutf : u.encodeUTF8 msgBytes = j.stringifyEnvelope E)
    (hjson : j.parseEnvelope (j.stringifyEnvelope E) = some E)
    (chunks2 : List ChunkObj)
    (hperm : chunks2.Perm ((List.range total).map (fun i =>
      ({ v := 1, kind := "dmesh-chunk", msgId := mid, seq := i, total := total,
         data := u.encodeBase64 ((msgBytes.drop (i * ds)).take ds) } : ChunkObj)))) :
    reassembleChunks chunks2 u j = .ok E := by
  set f : Nat → ChunkObj := fun i =>
    ({ v := 1, kind := "dmesh-chunk", msgId := mid, seq := i, total := total,
       data := u.encodeBase64 ((msgBytes.drop (i * ds)).take ds) } : ChunkObj) with hf
  have hfseq : ∀ i, (f i).seq = i := fun _ => rfl
  have hlen2 : chunks2.length = total := by
    rw [hperm.length_eq]
    simp
  have hemp : chunks2.isEmpty = false := by
    cases chunks2 with
    | nil => simp at hlen2; omega
    | cons c cs => rfl
  have hkind : chunks2.all (fun c => c.kind == "dmesh-chunk") = true := by
    rw [List.all_eq_true]
    intro c hc
    have hcmem := hperm.subset hc
    rw [List.mem_map] at hcmem
    obtain ⟨i, _, hceq⟩ := hcmem
    subst hceq
    rfl
  have hsorted_can : ((List.range total).map f).Pairwise (fun a b => a.seq ≤ b.seq) := by
    rw [List.pairwise_map]
    exact (List.pairwise_lt_range total).imp (fun h => Nat.le_of_lt h)
  have hnodup_can : (((List.range total).map f).map (fun c => c.seq)).Nodup := by
    rw [List.map_map]
    have : ((fun c => ChunkObj.seq c) ∘ f) = fun i => i := by
      funext i
      rfl
    rw [this]
    simpa using List.nodup_range total
  have htrans : ∀ (a b c : ChunkObj),
      (fun a b : ChunkObj => (a.seq ≤ b.seq : Bool)) a b = true →
      (fun a b : ChunkObj => (a.seq ≤ b.seq : Bool)) b c = true →
      (fun a b : ChunkObj => (a.seq ≤ b.seq : Bool)) a c = true := by
    intro a b c h1 h2
    simp only [decide_eq_true_eq] at h1 h2 ⊢
    omega
  have htotal : ∀ (a b : ChunkObj),
      ((fun a b : ChunkObj => (a.seq ≤ b.seq : Bool)) a b ||
       (fun a b : ChunkObj => (a.seq ≤ b.seq : Bool)) b a) = true := by
    intro a b
    simp only [Bool.or_eq_true, decide_eq_true_eq]
    omega
  have hms_perm := List.mergeSort_perm chunks2 (fun a b : ChunkObj => (a.seq ≤ b.seq : Bool))
  have hms_sorted0 := List.sorted_mergeSort htrans htotal chunks2
  have hms_sorted : (chunks2.mergeSort (fun a b : ChunkObj => (a.seq ≤ b.seq : Bool))).Pairwise
      (fun a b => a.seq ≤ b.seq) := by
    refine hms_sorted0.imp ?_
    intro a b h
    simpa using h
  have hms_nodup : ((chunks2.mergeSort (fun a b : ChunkObj => (a.seq ≤ b.seq : Bool))).map
      (fun c => c.seq)).Nodup := by
    have hp2 : ((chunks2.mergeSort (fun a b : ChunkObj => (a.seq ≤ b.seq : Bool))).map
        (fun c => c.seq)).Perm (((List.range total).map f).map (fun c => c.seq)) :=
      (hms_perm.trans hperm).map _
    exact hp2.nodup_iff.mpr hnodup_can
  have heq : chunks2.mergeSort (fun a b : ChunkObj => (a.seq ≤ b.seq : Bool))
      = (List.range total).map f :=
    sorted_perm_unique _ _ (hms_perm.trans hperm) hms_sorted hsorted_can hms_nodup
  obtain ⟨k, hk⟩ : ∃ k, total = k + 1 := ⟨total - 1, by omega⟩
  subst hk
  have hcan_cons : (List.range (k + 1)).map f = f 0 :: (List.range' 1 k).map f := by
    rw [List.range_eq_range', List.range'_succ, List.map_cons]
  have hsq : seqCheck 0 (f 0 :: (List.range' 1 k).map f) = true := by
    have := seqCheck_range' f hfseq (k + 1) 0
    rwa [List.range'_succ, List.map_cons] at this
  have hlen3 : (f 0 :: (List.range' 1 k).map f).length = k + 1 := by
    simp
  have hmids : ((f 0 :: (List.range' 1 k).map f).all
      (fun c => c.msgId == mid)) = true := by
    rw [List.all_eq_true]
    intro c hc
    rcases List.mem_cons.mp hc with h | h
    · subst h; simp [hf]
    · rw [List.mem_map] at h
      obtain ⟨i, _, hceq⟩ := h
      subst hceq
      simp [hf]
  have hmapm : (f 0 :: (List.range' 1 k).map f).mapM (fun c => u.decodeBase64 c.data)
      = some ((f 0 :: (List.range' 1 k).map f).map
          (fun c => (msgBytes.drop (c.seq * ds)).take ds)) := by
    refine mapM_decode u _ _ ?_
    intro c hc
    rcases List.mem_cons.mp hc with h | h
    · subst h
      exact hb 0 (by omega)
    · rw [List.mem_map] at h
      obtain ⟨i, hi, hceq⟩ := h
      subst hceq
      have hi2 : i < k + 1 := by
        rw [List.mem_range'_1] at hi
        omega
      exact hb i hi2
  have hflat : concatU8 ((f 0 :: (List.range' 1 k).map f).map
      (fun c => (msgBytes.drop (c.seq * ds)).take ds)) = msgBytes := by
    rw [← hcan_cons, List.map_map]
    have hgf : ((fun c => (msgBytes.drop (c.seq * ds)).take ds) ∘ f)
        = fun i => (msgBytes.drop (i * ds)).take ds := by
      funext i
      rfl
    rw [hgf]
    exact flatten_slices ds hdsp (k + 1) msgBytes hlen
  simp only [reassembleChunks, hemp, Bool.false_eq_true, if_false, hkind, heq,
    hcan_cons]
  rw [if_neg (fun hc => hc trivial)]
  rw [if_neg (fun hc => hc hlen3)]
  rw [if_neg (fun hc => hc hsq)]
  rw [if_neg (fun hc => hc hmids)]
  simp only [hmapm, hflat, hutf, hjson]

/-- C7: chunkMessage cuts the UTF-8 JSON serialization of the envelope into
    exactly ceil(length / (N - CHUNK_OVERHEAD)) chunks, all carrying the same
    msgId (derived from the ciphertext) and the same total, and
    reassembleChunks applied to that list in any order (any permutation)
    returns the original envelope. Hypotheses: N exceeds CHUNK_OVERHEAD, the
    ciphertext field decodes, the serialization is nonempty, base64 round
    trips on each produced slice, and the UTF-8 and JSON codecs round trip on
    the serialized envelope. -/
theorem C7_chunk_roundtrip
    (E : Envelope) (N : Nat) (nacl : Nacl) (u : NaclUtil) (j : Json) (ct : Bytes)
    (hN : CHUNK_OVERHEAD < N)
    (hct : u.decodeBase64 E.ciphertext = some ct)
    (hne : u.decodeUTF8 (j.stringifyEnvelope E) ≠ [])
    (hb : ∀ i, i < ((u.decodeUTF8 (j.stringifyEnvelope E)).length + (N - CHUNK_OVERHEAD) - 1)
        / (N - CHUNK_OVERHEAD) →
      u.decodeBase64 (u.encodeBase64 (((u.decodeUTF8 (j.stringifyEnvelope E)).drop
          (i * (N - CHUNK_OVERHEAD))).take (N - CHUNK_OVERHEAD)))
        = some (((u.decodeUTF8 (j.stringifyEnvelope E)).drop
          (i * (N - CHUNK_OVERHEAD))).take (N - CHUNK_OVERHEAD)))
    (hutf : u.encodeUTF8 (u.decodeUTF8 (j.stringifyEnvelope E)) = j.stringifyEnvelope E)
    (hjson : j.parseEnvelope (j.stringifyEnvelope E) = some E) :
    ∀ chunks, chunkMessage E N nacl u j = .ok chunks →
      chunks.length = ((u.decodeUTF8 (j.stringifyEnvelope E)).length + (N - CHUNK_OVERHEAD) - 1)
        / (N - CHUNK_OVERHEAD) ∧
      (∀ c ∈ chunks, c.msgId = u.encodeBase64 (messageIdFromCiphertext ct nacl)
        ∧ c.total = chunks.length) ∧
      (∀ chunks2, chunks2.Perm chunks → reassembleChunks chunks2 u j = .ok E) := by
  intro chunks hch
  have hnle : ¬ N ≤ CHUNK_OVERHEAD := by omega
  have hdsp : 0 < N - CHUNK_OVERHEAD := by omega
  simp only [chunkMessage, hct, if_neg hnle] at hch
  rw [Except.ok.injEq] at hch
  subst hch
  refine ⟨by simp, ?_, ?_⟩
  · intro c hc
    rw [List.mem_map] at hc
    obtain ⟨i, _, hceq⟩ := hc
    subst hceq
    exact ⟨rfl, by simp⟩
  · intro chunks2 hperm
    exact reassemble_of_chunks u j E (u.decodeUTF8 (j.stringifyEnvelope E))
      (N - CHUNK_OVERHEAD)
      (((u.decodeUTF8 (j.stringifyEnvelope E)).length + (N - CHUNK_OVERHEAD) - 1)
        / (N - CHUNK_OVERHEAD))
      (u.encodeBase64 (messageIdFromCiphertext ct nacl)) hdsp
      (ceil_mul_ge _ _ hdsp)
      (ceil_pos _ _ (List.length_pos.mpr hne) hdsp)
      hb hutf hjson chunks2 hperm

/-- A concrete JSON codec stand-in whose envelope parser inverts the
    envelope serializer at the concrete envelope. -/
def cJsonC7 : Json :=
  { stringifyPayload := fun _ => "P",
    parsePayload := fun _ => none,
    stringifyEnvelope := fun _ => "E",
    parseEnvelope := fun s => if s = "E" then some cEnvC10 else none }

/-- C7 witness: the theorem applied at a concrete envelope and chunk size
    (the chunk-count conjunct and the reassembly of the produced order). -/
theorem C7_chunk_roundtrip_witness :
    ((chunkMessage cEnvC10 151 cNacl cUtil cJsonC7).toOption.getD []).length
      = ((cUtil.decodeUTF8 (cJsonC7.stringifyEnvelope cEnvC10)).length
          + (151 - CHUNK_OVERHEAD) - 1) / (151 - CHUNK_OVERHEAD) ∧
    reassembleChunks ((chunkMessage cEnvC10 151 cNacl cUtil cJsonC7).toOption.getD [])
        cUtil cJsonC7 = .ok cEnvC10 :=
  ⟨(C7_chunk_roundtrip cEnvC10 151 cNacl cUtil cJsonC7 [9] (by decide) (by rfl)
      (by decide) (by decide) (by rfl) (by rfl)
      ((chunkMessage cEnvC10 151 cNacl cUtil cJsonC7).toOption.getD []) (by rfl)).1,
   (C7_chunk_roundtrip cEnvC10 151 cNacl cUtil cJsonC7 [9] (by decide) (by rfl)
      (by decide) (by decide) (by rfl) (by rfl)
      ((chunkMessage cEnvC10 151 cNacl cUtil cJsonC7).toOption.getD []) (by rfl)).2.2
     ((chunkMessage cEnvC10 151 cNacl cUtil cJsonC7).toOption.getD [])
     (List.Perm.refl _)⟩
